import Mathlib

/-!
# Network options of `nerdctl run` and volume removal

A shallow embedding of `cmd/nerdctl/run_network.go` and `cmd/nerdctl/volume_rm.go`.

* Go functions become Lean functions of the same name.
* Collaborators that live outside the two files (the container runtime client, the
  CNI configuration store, the resolv.conf utilities, the volume store, the Go standard
  library) are fields of an environment record: the functions are verified for every
  behaviour of these collaborators.
* The cobra flag set is a record of typed values and `Changed` bits. The typed getters
  of cobra fail only for a flag that is not registered with that type, so the
  `err != nil` returns that follow each getter have no counterpart here.
* Calls with an effect that the specification talks about (creating the runtime
  client, walking the containers, reading the host resolv.conf, writing the
  resolv.conf, removing volumes, printing) are recorded, in call order, in a list of
  `Event`s returned next to the Go result.
* A Go `error` is `Option String` (`none` is `nil`), a `(value, error)` pair is
  `Except String value`.
-/

namespace Nerdctl

/-! ## Data model -/

/-- The network types of `pkg/netutil/nettype`, as used by the `switch` of
`generateNetOpts`; `Invalid` stands for every value outside the four handled cases. -/
inductive NetType where
  | Invalid
  | None
  | Host
  | CNI
  | Container
  deriving DecidableEq, Repr

/-- The `oci.SpecOpts` closures that `generateNetOpts` appends, as data. -/
inductive SpecOpts where
  /-- Go `oci.WithHostNamespace(specs.NetworkNamespace)` -/
  | WithHostNamespace
  /-- Go `oci.WithHostHostsFile` -/
  | WithHostHostsFile
  /-- Go `oci.WithHostResolvconf` -/
  | WithHostResolvconf
  /-- Go `withCustomResolvConf(src)`: bind mount of `src` on `/etc/resolv.conf` -/
  | withCustomResolvConf (src : String)
  /-- Go `withCustomHosts(src)`: bind mount of `src` on `/etc/hosts` -/
  | withCustomHosts (src : String)
  /-- Go `withCustomEtcHostname(src)`: bind mount of `src` on `/etc/hostname` -/
  | withCustomEtcHostname (src : String)
  /-- Go `oci.WithLinuxNamespace` of type `specs.NetworkNamespace` at `path` -/
  | WithLinuxNamespace (path : String)
  /-- Go `oci.WithHostname(hostname)` -/
  | WithHostname (hostname : String)
  deriving DecidableEq, Repr

/-- The entry `gocni.PortMapping`. -/
structure PortMapping where
  HostPort : Int
  ContainerPort : Int
  Protocol : String
  HostIP : String
  deriving DecidableEq, Repr

/-- Calls whose occurrence and order the specification talks about. -/
inductive Event where
  /-- Go `clientutil.NewClient(ctx, namespace, address)` -/
  | NewClient (ns address : String)
  /-- Go `walker.Walk(ctx, req)` -/
  | Walk (req : String)
  /-- Go `resolvconf.Get()`: the read of the host resolv.conf -/
  | ResolvconfGet
  /-- Go `resolvconf.Build(path, nameservers, searchDomains, dnsOptions)` -/
  | ResolvconfBuild (path : String) (nameServers searchDomains dnsOptions : List String)
  /-- Go `volStore.Remove(names)` -/
  | VolumeRemove (names : List String)
  /-- Go `fmt.Fprintln(cmd.OutOrStdout(), name)` -/
  | Println (line : String)
  deriving DecidableEq, Repr

/-- The flags of the command that the two files read. For a slice flag that the code
also asks `Changed` of, the bit is a field of its own. -/
structure Flags where
  publish : List String
  publishChanged : Bool
  ip : String
  network : List String
  networkChanged : Bool
  net : List String
  netChanged : Bool
  macAddress : String
  namespaceFlag : String
  address : String
  cniPath : String
  cniNetconfpath : String
  dns : List String
  dnsChanged : Bool
  dnsSearch : List String
  dnsOpt : List String
  dnsOption : List String
  hostnameChanged : Bool
  addHostChanged : Bool

/-! ## Collaborators -/

/-- The value `resolvconf.File`; `Content` is the text of the file. -/
structure File where
  Content : String
  deriving DecidableEq, Repr

/-- What `resolvconf.Get()` returns: a file, an error for which
`errors.Is(err, fs.ErrNotExist)` holds, or any other error. -/
inductive GetResult where
  | ok (conf : File)
  | notExist (err : String)
  | failed (err : String)
  deriving DecidableEq, Repr

/-- The second argument of `resolvconf.GetNameservers`. -/
inductive IPKind where
  | IP
  | IPv4
  | IPv6
  deriving DecidableEq, Repr

/-- The states of `containerd.ProcessStatus`. -/
inductive ProcessStatus where
  | Running
  | Created
  | Stopped
  | Paused
  | Pausing
  | Unknown
  deriving DecidableEq, Repr

/-- A `containerd.Task`: `Status(ctx)` and `Pid()`. -/
structure Task where
  Status : Except String ProcessStatus
  Pid : Nat

/-- A `containerd.Container` as far as the two files use it: `ID()`, `Task(ctx, nil)`,
`Spec(ctx)` (of which only `Hostname` is read) and `Labels(ctx)`. -/
structure Container where
  ID : String
  Task : Except String Task
  SpecHostname : Except String String
  Labels : Except String (String → Option String)

/-- One plugin of a CNI configuration list; `Type_` is `Network.Type`. -/
structure Plugin where
  Type_ : String
  deriving DecidableEq, Repr

/-- A network configuration of `netutil`: the plugin chain of the network. -/
structure NetworkConfig where
  Plugins : List Plugin
  deriving DecidableEq, Repr

/-- The Go `map[string]*networkConfig` returned by `e.NetworkMap()`. -/
abbrev NetworkMap := String → Option NetworkConfig

/-- The value `netutil.CNIEnv`, of which only `NetworkMap()` is called. -/
structure CNIEnv where
  NetworkMap : Except String NetworkMap

/-- What a Go call yields when it may hit a runtime panic (an index out of range):
the returned value, or the panic. -/
inductive Ret (α : Type) where
  | ret (a : α)
  | panic
  deriving DecidableEq, Repr

/-- Everything outside `run_network.go` that `generateNetOpts` depends on. -/
structure Env where
  /-- Go `runtime.GOOS` -/
  GOOS : String
  /-- Go `net.ParseMAC`, error part -/
  ParseMAC : String → Option String
  /-- Go `nettype.Detect` -/
  Detect : List String → Except String NetType
  /-- The `%v` rendering of a network type -/
  formatNetType : NetType → String
  /-- Go `filepath.Join` of two elements -/
  Join : String → String → String
  /-- Go `netutil.NewCNIEnv(cniPath, cniNetconfpath, netutil.WithDefaultNetwork())` -/
  NewCNIEnv : String → String → Except String CNIEnv
  /-- Go `rootlessutil.IsRootlessChild()` -/
  IsRootlessChild : Bool
  /-- Go `dnsutil.GetSlirp4netnsDNS()` -/
  GetSlirp4netnsDNS : Except String (List String)
  /-- Go `resolvconf.Get()` -/
  Get : GetResult
  /-- Go `resolvconf.FilterResolvDNS(content, ipv6Enabled)` -/
  FilterResolvDNS : String → Bool → Except String File
  /-- Go `resolvconf.GetSearchDomains` -/
  GetSearchDomains : String → List String
  /-- Go `resolvconf.GetNameservers` -/
  GetNameservers : String → IPKind → List String
  /-- Go `resolvconf.GetOptions` -/
  GetOptions : String → List String
  /-- Go `resolvconf.Build(path, nameservers, searchDomains, dnsOptions)`, error part -/
  Build : String → List String → List String → List String → Option String
  /-- Go `hostsstore.AllocHostsFile(dataStore, ns, id)` -/
  AllocHostsFile : String → String → String → Except String String
  /-- Go `hostsstore.HostsPath(dataStore, ns, id)` -/
  HostsPath : String → String → String → String
  /-- Go `portutil.ParseFlagP(p)`: the mappings and the error -/
  ParseFlagP : String → List PortMapping × Option String
  /-- Go `clientutil.NewClient(ctx, namespace, address)`, error part -/
  NewClient : String → String → Option String
  /-- The containers that the walker finds for a reference, or the error of the query -/
  Containers : String → Except String (List Container)
  /-- Go `getContainerStateDirPath(cmd, dataStore, containerID)` -/
  getContainerStateDirPath : Flags → String → String → Except String String

/-! ## `pkg/strutil` -/

/-- Modelled from the spec: `strutil.DedupeStrSlice` (package `pkg/strutil` is not among
the sources). "Deduplicate each of the three explicit lists, preserving first-occurrence
order": the input is scanned from the left and an entry is appended to the result unless
it is already there. -/
def DedupeStrSlice (ss : List String) : List String :=
  ss.foldl (fun res s => if s ∈ res then res else res ++ [s]) []

/-- Modelled from the spec: `strutil.InStringSlice` (package `pkg/strutil` is not among
the sources). "must belong to the MAC-capable set": membership of `str` in `ss`. -/
def InStringSlice (ss : List String) (str : String) : Bool :=
  ss.any (fun s => s == str)

/-! ## `pkg/netutil/nettype` -/

/-- Modelled from the spec: the kind of one token in `nettype.Detect` (not among the
sources), after section 4.1:
`none` is the isolated mode, `host` the host-shared mode, a token of the form
`container:<ref>` the peer-shared mode, where "`<ref>` must be non-empty", and any
other token is the name of a managed network. -/
def tokenKind (token : String) : Except String NetType :=
  if token = "none" then .ok .None
  else if token = "host" then .ok .Host
  else if token.data.take 10 = "container:".data then
    if token.data.drop 10 = [] then
      .error ("invalid network: " ++ token ++ ", the container reference is empty")
    else .ok .Container
  else .ok .CNI

/-- Modelled from the spec: the tokens after the first one in `nettype.Detect` (not
among the sources), after section 4.1: a token of
another kind than the first is rejected, and so is a second token in the peer-shared
mode. -/
def detectRest : List String → NetType → Except String NetType
  | [], res => .ok res
  | token :: rest, res =>
    match tokenKind token with
    | .error err => .error err
    | .ok kind =>
      if kind ≠ res then .error "mixed network types"
      else if kind = .Container then
        .error "only one network token is allowed in the container mode"
      else detectRest rest res

/-- Modelled from the spec: `nettype.Detect` (package `pkg/netutil/nettype` is not among
the sources), after section 4.1. An empty token list is the managed mode; `none` alone
is the isolated mode and `host` alone the host-shared mode; a token of the form
`container:<ref>` is the peer-shared mode, "more than one token in this mode is an
error" and "`<ref>` must be non-empty"; any other set of bare names is the managed
mode; a list with more than one kind of token is rejected. The texts of the errors are
not fixed by the specification. -/
def Detect (tokens : List String) : Except String NetType :=
  match tokens with
  | [] => .ok .CNI
  | first :: rest =>
    match tokenKind first with
    | .error err => .error err
    | .ok kind => detectRest rest kind

/-! ## `buildResolvConf` -/

/-- Lines 352-358 of `buildResolvConf`: `slirp4Dns` is empty unless the process is the
rootless child, where it is what `dnsutil.GetSlirp4netnsDNS()` returns. -/
def slirp4Dns (env : Env) : Except String (List String) :=
  if env.IsRootlessChild then env.GetSlirp4netnsDNS else .ok []

/-- Lines 367-379 of `buildResolvConf`: `resolvconf.Get()`, where a missing file counts
as the empty file `&resolvconf.File{}`, followed by `resolvconf.FilterResolvDNS`. -/
def filteredHostConf (env : Env) : Except String File :=
  match env.Get with
  | .failed err => .error err
  | .notExist _ => env.FilterResolvDNS "" true
  | .ok conf => env.FilterResolvDNS conf.Content true

/-- The function `buildResolvConf(cmd, resolvConfPath)`. -/
def buildResolvConf (env : Env) (cmd : Flags) (resolvConfPath : String) :
    List Event × Option String :=
  let dnsValue := cmd.dns
  let dnsSearchValue := cmd.dnsSearch
  let dnsOptionValue := cmd.dnsOpt ++ cmd.dnsOption
  match slirp4Dns env with
  | .error err => ([], some err)
  | .ok slirp4Dns =>
    let nameServers := DedupeStrSlice dnsValue
    let searchDomains := DedupeStrSlice dnsSearchValue
    let dnsOptions := DedupeStrSlice dnsOptionValue
    if nameServers.length = 0 ∨ searchDomains.length = 0 ∨ dnsOptions.length = 0 then
      match filteredHostConf env with
      | .error err => ([.ResolvconfGet], some err)
      | .ok conf =>
        let searchDomains :=
          if searchDomains.length = 0 then env.GetSearchDomains conf.Content
          else searchDomains
        let nameServers :=
          if nameServers.length = 0 then env.GetNameservers conf.Content .IPv4
          else nameServers
        let dnsOptions :=
          if dnsOptions.length = 0 then env.GetOptions conf.Content else dnsOptions
        ([.ResolvconfGet,
          .ResolvconfBuild resolvConfPath (slirp4Dns ++ nameServers) searchDomains dnsOptions],
          env.Build resolvConfPath (slirp4Dns ++ nameServers) searchDomains dnsOptions)
    else
      ([.ResolvconfBuild resolvConfPath (slirp4Dns ++ nameServers) searchDomains dnsOptions],
        env.Build resolvConfPath (slirp4Dns ++ nameServers) searchDomains dnsOptions)

/-! ## Small helpers of `run_network.go` -/

/-- The function `getNetworkSlice(cmd)`. -/
def getNetworkSlice (cmd : Flags) : List String :=
  let netSlice : List String := []
  let networkSet := false
  let (netSlice, networkSet) :=
    if cmd.networkChanged then (netSlice ++ cmd.network, true) else (netSlice, networkSet)
  let (netSlice, networkSet) :=
    if cmd.netChanged then (netSlice ++ cmd.net, true) else (netSlice, networkSet)
  if !networkSet then netSlice ++ cmd.network else netSlice

/-- The function `getMACAddress(cmd, netSlice)`. -/
def getMACAddress (env : Env) (cmd : Flags) (_netSlice : List String) : Except String String :=
  let macAddress := cmd.macAddress
  if macAddress = "" then .ok ""
  else
    match env.ParseMAC macAddress with
    | some err => .error err
    | none => .ok macAddress

/-- The function `getContainerNetNSPath(ctx, c)`. -/
def getContainerNetNSPath (c : Container) : Except String String :=
  match c.Task with
  | .error err => .error err
  | .ok task =>
    match task.Status with
    | .error err => .error err
    | .ok status =>
      if status ≠ .Running then
        .error ("invalid target container: " ++ c.ID ++ ", should be running")
      else .ok ("/proc/" ++ toString task.Pid ++ "/ns/net")

/-- The list `macValidNetworks` of `verifyCNINetwork`. -/
def macValidNetworks : List String := ["bridge", "macvlan"]

/-- The `for _, netstr := range netSlice` loop of `verifyCNINetwork`. -/
def verifyCNINetworkLoop (netMap : NetworkMap) (macAddress : String) :
    List String → Ret (Option String)
  | [] => .ret none
  | netstr :: rest =>
    match netMap netstr with
    | none => .ret (some ("network " ++ netstr ++ " not found"))
    | some netConfig =>
      match netConfig.Plugins with
      | [] => .panic
      | plugin :: _ =>
        let netType := plugin.Type_
        if macAddress ≠ "" ∧ InStringSlice macValidNetworks netType = false then
          .ret (some (netType ++ " interfaces on network " ++ netstr ++
            " do not support --mac-address"))
        else verifyCNINetworkLoop netMap macAddress rest

/-- The function `verifyCNINetwork(cmd, netSlice, macAddress)`. -/
def verifyCNINetwork (env : Env) (cmd : Flags) (netSlice : List String)
    (macAddress : String) : Ret (Option String) :=
  match env.NewCNIEnv cmd.cniPath cmd.cniNetconfpath with
  | .error err => .ret (some err)
  | .ok e =>
    match e.NetworkMap with
    | .error err => .ret (some err)
    | .ok netMap => verifyCNINetworkLoop netMap macAddress netSlice

/-- The function `verifyContainerNetwork(cmd, netSlice)`. -/
def verifyContainerNetwork (env : Env) (cmd : Flags) (netSlice : List String) :
    Option String :=
  if cmd.publishChanged then
    some "conflicting options: port publishing and the container type network mode"
  else if cmd.hostnameChanged then
    some "conflicting options: hostname and the network mode"
  else if cmd.dnsChanged then
    some "conflicting options: dns and the network mode"
  else if cmd.addHostChanged then
    some "conflicting options: custom host-to-IP mapping and the network mode"
  else if env.GOOS ≠ "linux" then
    some "currently \x27--network=container:<container>\x27 can only works on linux"
  else if netSlice.length > 1 then
    some "only one network allowed using \x27--network=container:<container>\x27"
  else none

/-! ## The container walker -/

/-- The record `containerwalker.Found` handed to `OnFound`. -/
structure Found where
  Container : Container
  Req : String
  MatchIndex : Nat
  MatchCount : Nat

/-- The calls of `OnFound`, one per container found, in order; the walk stops at the
first call that returns an error. `σ` is the state the closure writes to. -/
def walkLoop {σ : Type} (OnFound : Found → σ → Option String × σ) (req : String)
    (matchCount : Nat) : List Container → Nat → σ → Option String × σ
  | [], _, st => (none, st)
  | c :: rest, i, st =>
    match OnFound ⟨c, req, i, matchCount⟩ st with
    | (some err, st) => (some err, st)
    | (none, st) => walkLoop OnFound req matchCount rest (i + 1) st

/-- Modelled from the spec: `(*ContainerWalker).Walk` (package
`pkg/idutil/containerwalker` is not among the sources). The reference is resolved
"against the set of existing containers" (`env.Containers req`, which may fail); the
callback `OnFound` runs once per match and is told the match count; the walk returns
the match count, or `-1` and the error of the query or of the first failing callback. -/
def Walk {σ : Type} (env : Env) (OnFound : Found → σ → Option String × σ) (req : String)
    (st : σ) : (Int × Option String) × σ :=
  match env.Containers req with
  | .error err => ((-1, some err), st)
  | .ok containers =>
    match walkLoop OnFound req containers.length containers 0 st with
    | (some err, st) => ((-1, some err), st)
    | (none, st) => ((containers.length, none), st)

/-! ## `generateNetOpts` -/

/-- The pieces of `s` between the occurrences of the character `sep`. -/
def splitChars (sep : Char) : List Char → List (List Char)
  | [] => [[]]
  | c :: cs =>
    if c = sep then [] :: splitChars sep cs
    else
      match splitChars sep cs with
      | [] => [[c]]
      | w :: ws => (c :: w) :: ws

/-- The call `strings.Split(s, sep)` for a separator of one character. -/
def Split (s : String) (sep : Char) : List String :=
  (splitChars sep s.data).map String.mk

/-- The six values that `generateNetOpts` returns. -/
structure NetOptsReturn where
  opts : List SpecOpts
  netSlice : List String
  ipAddress : String
  ports : List PortMapping
  macAddress : String
  err : Option String
  deriving DecidableEq, Repr

/-- The statement `return nil, nil, "", nil, "", err`. -/
def NetOptsReturn.failure (err : String) : NetOptsReturn :=
  ⟨[], [], "", [], "", some err⟩

/-- The closure `OnFound` of `generateNetOpts`; it writes to `opts` and `netSlice`. -/
def OnFound (env : Env) (cmd : Flags) (dataStore ns containerName : String)
    (found : Found) (st : List SpecOpts × List String) :
    Option String × (List SpecOpts × List String) :=
  if found.MatchCount > 1 then
    (some ("multiple containers found with prefix: " ++ containerName), st)
  else
    let containerID := found.Container.ID
    match env.getContainerStateDirPath cmd dataStore containerID with
    | .error err => (some err, st)
    | .ok conStateDir =>
      match found.Container.SpecHostname with
      | .error err => (some err, st)
      | .ok hostname =>
        let hostnamePath := env.Join conStateDir "hostname"
        let resolvConfPath := env.Join conStateDir "resolv.conf"
        let etcHostsPath := env.HostsPath dataStore ns containerID
        match getContainerNetNSPath found.Container with
        | .error err => (some err, st)
        | .ok netNSPath =>
          (none,
            (st.1 ++ [.WithLinuxNamespace netNSPath,
                .withCustomResolvConf resolvConfPath,
                .withCustomHosts etcHostsPath,
                .WithHostname hostname,
                .withCustomEtcHostname hostnamePath],
              ["container:" ++ containerID]))

/-- The `for _, p := range portSlice` loop of `generateNetOpts`: the port mappings, or
the mappings and the error that `portutil.ParseFlagP` returned for the first bad entry. -/
def parsePorts (env : Env) : List String → List PortMapping →
    Except (List PortMapping × String) (List PortMapping)
  | [], ports => .ok ports
  | p :: rest, ports =>
    match env.ParseFlagP p with
    | (pm, some err) => .error (pm, err)
    | (pm, none) => parsePorts env rest (ports ++ pm)

/-- The function `generateNetOpts(cmd, dataStore, stateDir, ns, id)`. The warning that
is logged for an IP address without a network and the deferred `cancel()` have no
effect on what is returned and are left out. -/
def generateNetOpts (env : Env) (cmd : Flags) (dataStore stateDir ns id : String) :
    List Event × Ret NetOptsReturn :=
  let opts : List SpecOpts := []
  let portSlice := cmd.publish
  let ipAddress := cmd.ip
  let netSlice := getNetworkSlice cmd
  match getMACAddress env cmd netSlice with
  | .error err => ([], .ret (.failure err))
  | .ok macAddress =>
    let ports : List PortMapping := []
    match env.Detect netSlice with
    | .error err => ([], .ret (.failure err))
    | .ok netType =>
      match netType with
      | .None => ([], .ret ⟨opts, netSlice, ipAddress, ports, macAddress, none⟩)
      | .Host =>
        if macAddress ≠ "" then
          ([], .ret (.failure "conflicting options: mac-address and the network mode"))
        else
          ([], .ret ⟨opts ++ [.WithHostNamespace, .WithHostHostsFile, .WithHostResolvconf],
            netSlice, ipAddress, ports, macAddress, none⟩)
      | .CNI =>
        match verifyCNINetwork env cmd netSlice macAddress with
        | .panic => ([], .panic)
        | .ret (some err) => ([], .ret (.failure err))
        | .ret none =>
          if env.GOOS = "linux" then
            let resolvConfPath := env.Join stateDir "resolv.conf"
            match buildResolvConf env cmd resolvConfPath with
            | (trace, some err) => (trace, .ret (.failure err))
            | (trace, none) =>
              match env.AllocHostsFile dataStore ns id with
              | .error err => (trace, .ret (.failure err))
              | .ok etcHostsPath =>
                let opts := opts ++
                  [.withCustomResolvConf resolvConfPath, .withCustomHosts etcHostsPath]
                match parsePorts env portSlice ports with
                | .error (pm, err) => (trace, .ret ⟨[], [], "", pm, "", some err⟩)
                | .ok ports =>
                  (trace, .ret ⟨opts, netSlice, ipAddress, ports, macAddress, none⟩)
          else ([], .ret ⟨opts, netSlice, ipAddress, ports, macAddress, none⟩)
      | .Container =>
        if macAddress ≠ "" then
          ([], .ret (.failure "conflicting options: mac-address and the network mode"))
        else
          match verifyContainerNetwork env cmd netSlice with
          | some err => ([], .ret (.failure err))
          | none =>
            match netSlice with
            | [] => ([], .panic)
            | first :: _ =>
              let network := Split first ':'
              if network.length ≠ 2 then
                ([], .ret (.failure ("invalid network: " ++ first ++
                  ", should be \x22container:<id|name>\x22")))
              else
                let containerName := network.getD 1 ""
                let namespaceFlag := cmd.namespaceFlag
                let address := cmd.address
                match env.NewClient namespaceFlag address with
                | some err => ([.NewClient namespaceFlag address], .ret (.failure err))
                | none =>
                  match Walk env (OnFound env cmd dataStore ns containerName)
                      containerName (opts, netSlice) with
                  | ((_, some err), _) =>
                    ([.NewClient namespaceFlag address, .Walk containerName],
                      .ret (.failure err))
                  | ((n, none), (opts, netSlice)) =>
                    if n = 0 then
                      ([.NewClient namespaceFlag address, .Walk containerName],
                        .ret (.failure ("no such container: " ++ containerName)))
                    else
                      ([.NewClient namespaceFlag address, .Walk containerName],
                        .ret ⟨opts, netSlice, ipAddress, ports, macAddress, none⟩)
      | .Invalid =>
        ([], .ret (.failure ("unexpected network type " ++ env.formatNetType netType)))

/-! ## `volume_rm.go` -/

/-- The entry `dockercompat.MountPoint`, of which `Type` and `Name` are read. -/
structure MountPoint where
  Type_ : String
  Name : String
  deriving DecidableEq, Repr

/-- The volume that `volStore.Get` returns, of which `Name` is read. -/
structure Volume where
  Name : String
  deriving DecidableEq, Repr

/-- The volume store returned by `getVolumeStore(cmd)`. -/
structure VolumeStore where
  /-- Go `volStore.Get(name, size)` -/
  Get : String → Bool → Except String Volume
  /-- Go `volStore.Remove(names)`: the removed names and the error -/
  Remove : List String → List String × Option String

/-- Everything outside `volume_rm.go` that `volumeRmAction` depends on. -/
structure VolumeEnv where
  /-- Go `clientutil.NewClient(ctx, namespace, address)`, error part -/
  NewClient : String → String → Option String
  /-- Go `client.Containers(ctx)` -/
  Containers : Except String (List Container)
  /-- Go `getVolumeStore(cmd)` -/
  getVolumeStore : Flags → Except String VolumeStore
  /-- The constant `labels.Mounts` -/
  labelsMounts : String
  /-- The constant `mountutil.Volume` -/
  mountutilVolume : String
  /-- Go `json.Unmarshal` of the mounts label into `[]dockercompat.MountPoint` -/
  Unmarshal : String → Except String (List MountPoint)
  /-- The `%q` rendering of a string -/
  Quote : String → String

/-- The assignment `usedVolumes[name] = struct{}{}` on a set kept as the list of its
keys. -/
def setInsert (used : List String) (name : String) : List String :=
  if name ∈ used then used else used ++ [name]

/-- The `for _, m := range mounts` loop of `usedVolumes`. -/
def usedVolumesMounts (env : VolumeEnv) : List MountPoint → List String → List String
  | [], used => used
  | m :: rest, used =>
    if m.Type_ = env.mountutilVolume then usedVolumesMounts env rest (setInsert used m.Name)
    else usedVolumesMounts env rest used

/-- The `for _, c := range containers` loop of `usedVolumes`. -/
def usedVolumesLoop (env : VolumeEnv) : List Container → List String →
    Except String (List String)
  | [], used => .ok used
  | c :: rest, used =>
    match c.Labels with
    | .error err => .error err
    | .ok l =>
      match l env.labelsMounts with
      | none => usedVolumesLoop env rest used
      | some mountsJSON =>
        match env.Unmarshal mountsJSON with
        | .error err => .error err
        | .ok mounts => usedVolumesLoop env rest (usedVolumesMounts env mounts used)

/-- The function `usedVolumes(ctx, containers)`; the Go set `map[string]struct{}` is
the list of its keys. -/
def usedVolumes (env : VolumeEnv) (containers : List Container) :
    Except String (List String) :=
  usedVolumesLoop env containers []

/-- The `for _, name := range names` loop of `volumeRmAction`. -/
def volumeRmLoop (env : VolumeEnv) (volStore : VolumeStore) (usedVolumes : List String) :
    List String → List String → Except String (List String)
  | [], volumenames => .ok volumenames
  | name :: rest, volumenames =>
    match volStore.Get name false with
    | .error err => .error err
    | .ok volume =>
      if volume.Name ∈ usedVolumes then
        .error ("volume " ++ env.Quote name ++ " is in use")
      else volumeRmLoop env volStore usedVolumes rest (volumenames ++ [name])

/-- The function `volumeRmAction(cmd, args)`. -/
def volumeRmAction (env : VolumeEnv) (cmd : Flags) (args : List String) :
    List Event × Option String :=
  let namespaceFlag := cmd.namespaceFlag
  let address := cmd.address
  match env.NewClient namespaceFlag address with
  | some err => ([.NewClient namespaceFlag address], some err)
  | none =>
    match env.Containers with
    | .error err => ([.NewClient namespaceFlag address], some err)
    | .ok containers =>
      match env.getVolumeStore cmd with
      | .error err => ([.NewClient namespaceFlag address], some err)
      | .ok volStore =>
        let names := args
        match usedVolumes env containers with
        | .error err => ([.NewClient namespaceFlag address], some err)
        | .ok usedVolumes =>
          match volumeRmLoop env volStore usedVolumes names [] with
          | .error err => ([.NewClient namespaceFlag address], some err)
          | .ok volumenames =>
            match volStore.Remove volumenames with
            | (_, some err) =>
              ([.NewClient namespaceFlag address, .VolumeRemove volumenames], some err)
            | (removedNames, none) =>
              ([.NewClient namespaceFlag address, .VolumeRemove volumenames] ++
                removedNames.map .Println, none)

/-! ## Concrete instances

The environments and flag sets at which the theorems below are instantiated. -/

/-- A running container with id `4f1c` whose task has process id 4242. -/
def webContainer : Container :=
  { ID := "4f1c"
    Task := .ok { Status := .ok .Running, Pid := 4242 }
    SpecHostname := .ok "web"
    Labels := .ok (fun key =>
      if key = "nerdctl/mounts" then some "[mounts of 4f1c]" else none) }

/-- The same container with a stopped task. -/
def stoppedContainer : Container :=
  { webContainer with Task := .ok { Status := .ok .Stopped, Pid := 4242 } }

/-- The networks of the sample environment. -/
def sampleNetworks : NetworkMap := fun name =>
  if name = "bridge" then some ⟨[⟨"bridge"⟩, ⟨"portmap"⟩, ⟨"firewall"⟩]⟩
  else if name = "mv0" then some ⟨[⟨"macvlan"⟩]⟩
  else if name = "ov0" then some ⟨[⟨"overlay"⟩]⟩
  else none

/-- A MAC address that the sample `ParseMAC` accepts. -/
def sampleMAC : String := "02:42:ac:11:00:02"

/-- A rootful linux host with the classifier of the specification, three networks, one
running container `4f1c` and a host resolv.conf that names one search domain twice. -/
def sampleEnv : Env :=
  { GOOS := "linux"
    ParseMAC := fun s =>
      if s = sampleMAC then none else some ("address " ++ s ++ ": invalid MAC address")
    Detect := Detect
    formatNetType := fun _ => "0"
    Join := fun dir name => dir ++ "/" ++ name
    NewCNIEnv := fun _ _ => .ok ⟨.ok sampleNetworks⟩
    IsRootlessChild := false
    GetSlirp4netnsDNS := .ok ["10.0.2.3"]
    Get := .ok ⟨"host"⟩
    FilterResolvDNS := fun content _ => .ok ⟨content⟩
    GetSearchDomains := fun content =>
      if content = "host" then ["corp.example", "corp.example"] else []
    GetNameservers := fun content _ => if content = "host" then ["192.0.2.53"] else []
    GetOptions := fun content => if content = "host" then ["ndots:2"] else []
    Build := fun _ _ _ _ => none
    AllocHostsFile := fun dataStore ns id => .ok (dataStore ++ "/etchosts/" ++ ns ++ "/" ++ id)
    HostsPath := fun dataStore ns id => dataStore ++ "/etchosts/" ++ ns ++ "/" ++ id
    ParseFlagP := fun _ => ([], none)
    NewClient := fun _ _ => none
    Containers := fun req =>
      if req = "4f1c" ∨ req = "web" then .ok [webContainer] else .ok []
    getContainerStateDirPath := fun _ dataStore id => .ok (dataStore ++ "/containers/" ++ id) }

/-- The sample host run as the rootless child, with the proxy address `10.0.2.3`. -/
def rootlessEnv : Env :=
  { sampleEnv with IsRootlessChild := true }

/-- A flag set in which no flag was given. -/
def noFlags : Flags :=
  { publish := [], publishChanged := false, ip := "", network := [],
    networkChanged := false, net := [], netChanged := false, macAddress := "",
    namespaceFlag := "default", address := "/run/containerd/containerd.sock",
    cniPath := "/opt/cni/bin", cniNetconfpath := "/etc/cni/net.d", dns := [],
    dnsChanged := false, dnsSearch := [], dnsOpt := [], dnsOption := [],
    hostnameChanged := false, addHostChanged := false }

/-- The flags `--dns 10.0.2.3 --dns-search example.com --dns-opt ndots:1`. -/
def dnsFlags : Flags :=
  { noFlags with dns := ["10.0.2.3"], dnsChanged := true, dnsSearch := ["example.com"],
                 dnsOpt := ["ndots:1"] }

/-! ## The specification's wording, for comparison with the code -/

/-- The value of one DNS field as the specification words it: "if the explicit list
is empty, fall back to the value extracted from the filtered host configuration; an
explicit non-empty list is never supplemented by host values". The explicit list is
deduplicated first. -/
def explicitOrHost (explicit host : List String) : List String :=
  if DedupeStrSlice explicit = [] then host else DedupeStrSlice explicit

/-- The events before the write of the resolv.conf: the host resolv.conf is read unless
all three deduplicated explicit lists are non-empty. -/
def hostReads (cmd : Flags) : List Event :=
  if DedupeStrSlice cmd.dns = [] ∨ DedupeStrSlice cmd.dnsSearch = [] ∨
      DedupeStrSlice (cmd.dnsOpt ++ cmd.dnsOption) = [] then [.ResolvconfGet]
  else []

/-- The validity of one token as the specification words it: the token "must resolve
to a known network name", and "if `mac` is non-empty, every named network's underlying
plugin type must belong to the MAC-capable set {bridge, macvlan}", the type being that
of the first plugin of the network. -/
def tokenAccepted (netMap : NetworkMap) (mac : String) (t : String) : Bool :=
  match netMap t with
  | none => false
  | some cfg =>
    mac = "" ||
      match cfg.Plugins.head? with
      | none => false
      | some plugin => plugin.Type_ = "bridge" || plugin.Type_ = "macvlan"

/-- The errors with which `generateNetOpts` rejects options that conflict with the
peer-shared mode: the one for a MAC address and the six of `verifyContainerNetwork`. -/
def containerModeErrors : List String :=
  ["conflicting options: mac-address and the network mode",
    "conflicting options: port publishing and the container type network mode",
    "conflicting options: hostname and the network mode",
    "conflicting options: dns and the network mode",
    "conflicting options: custom host-to-IP mapping and the network mode",
    "currently \x27--network=container:<container>\x27 can only works on linux",
    "only one network allowed using \x27--network=container:<container>\x27"]

/-- The flags `--network host --mac-address 02:42:ac:11:00:02`. -/
def hostMacFlags : Flags :=
  { noFlags with network := ["host"], networkChanged := true, macAddress := sampleMAC }

/-- The flags `--network none --mac-address 02:42:ac:11:00:02 --ip 10.4.0.9`. -/
def noneMacFlags : Flags :=
  { noFlags with network := ["none"], networkChanged := true, macAddress := sampleMAC,
                 ip := "10.4.0.9" }

/-- The flags `--network container:web -p 8080:80`. -/
def peerPublishFlags : Flags :=
  { noFlags with network := ["container:web"], networkChanged := true,
                 publish := ["8080:80"], publishChanged := true }

/-- The flags `--network container:web`. -/
def peerFlags : Flags :=
  { noFlags with network := ["container:web"], networkChanged := true }

/-- The flags `--network container:ghost`, a reference that matches no container. -/
def ghostFlags : Flags :=
  { noFlags with network := ["container:ghost"], networkChanged := true }

/-- The sample host with a second container that matches every reference. -/
def crowdedEnv : Env :=
  { sampleEnv with Containers := fun _ => .ok [webContainer, stoppedContainer] }

/-- The flags `--network bridge -p 8080:80`. -/
def bridgeFlags : Flags :=
  { noFlags with network := ["bridge"], networkChanged := true, publish := ["8080:80"],
                 publishChanged := true }

/-- A name passes both checks of the removal loop: the store finds the volume, and the
name of the volume found is not in the set of used volumes. -/
def removable (volStore : VolumeStore) (used : List String) (name : String) : Bool :=
  match volStore.Get name false with
  | .error _ => false
  | .ok volume => !decide (volume.Name ∈ used)

/-- A container whose mounts label records the volume `data` and a bind mount. -/
def dbContainer : Container :=
  { ID := "9a0b"
    Task := .ok { Status := .ok .Running, Pid := 5151 }
    SpecHostname := .ok "db"
    Labels := .ok (fun key =>
      if key = "nerdctl/mounts" then some "[mounts of 9a0b]" else none) }

/-- A volume store with the volumes `data`, `cache` and `logs`. -/
def sampleStore : VolumeStore :=
  { Get := fun name _ =>
      if name = "data" ∨ name = "cache" ∨ name = "logs" then .ok ⟨name⟩
      else .error ("volume " ++ name ++ " not found")
    Remove := fun names => (names, none) }

/-- A host with the container `9a0b`, which uses the volume `data`. -/
def sampleVolumeEnv : VolumeEnv :=
  { NewClient := fun _ _ => none
    Containers := .ok [dbContainer]
    getVolumeStore := fun _ => .ok sampleStore
    labelsMounts := "nerdctl/mounts"
    mountutilVolume := "volume"
    Unmarshal := fun json =>
      if json = "[mounts of 9a0b]" then .ok [⟨"volume", "data"⟩, ⟨"bind", "logs"⟩]
      else .error "invalid character"
    Quote := fun name => "\x22" ++ name ++ "\x22" }

/-! ## Lemmas on `DedupeStrSlice` -/

theorem dedupe_fold_nodup (ss : List String) :
    ∀ acc : List String, acc.Nodup →
      (ss.foldl (fun res s => if s ∈ res then res else res ++ [s]) acc).Nodup := by
  induction ss with
  | nil => intro acc h; simpa using h
  | cons s rest ih =>
    intro acc h
    simp only [List.foldl_cons]
    apply ih
    by_cases hs : s ∈ acc
    · simpa [hs] using h
    · simp only [hs, if_false]
      exact List.Nodup.append h (List.nodup_singleton s) (by simpa using hs)

theorem dedupe_fold_mem (ss : List String) :
    ∀ (acc : List String) (x : String),
      x ∈ ss.foldl (fun res s => if s ∈ res then res else res ++ [s]) acc ↔
        x ∈ acc ∨ x ∈ ss := by
  induction ss with
  | nil => intro acc x; simp
  | cons s rest ih =>
    intro acc x
    simp only [List.foldl_cons, ih, List.mem_cons]
    by_cases hs : s ∈ acc
    · simp only [hs, if_true]
      constructor
      · rintro (h | h)
        · exact Or.inl h
        · exact Or.inr (Or.inr h)
      · rintro (h | h | h)
        · exact Or.inl h
        · exact Or.inl (h ▸ hs)
        · exact Or.inr h
    · simp only [hs, if_false, List.mem_append, List.mem_singleton]
      tauto

theorem DedupeStrSlice_nodup (ss : List String) : (DedupeStrSlice ss).Nodup :=
  dedupe_fold_nodup ss [] List.nodup_nil

theorem mem_DedupeStrSlice (ss : List String) (x : String) :
    x ∈ DedupeStrSlice ss ↔ x ∈ ss := by
  simp [DedupeStrSlice, dedupe_fold_mem]

theorem DedupeStrSlice_eq_nil (ss : List String) : DedupeStrSlice ss = [] ↔ ss = [] := by
  constructor
  · intro h
    cases ss with
    | nil => rfl
    | cons s rest =>
      have : s ∈ DedupeStrSlice (s :: rest) := (mem_DedupeStrSlice _ _).2 (by simp)
      rw [h] at this
      simp at this
  · intro h
    subst h
    rfl

/-! ## `buildResolvConf`: the lists written -/

/-- Claim C1. Let `P` be the rootless-proxy addresses. For every filtered host
configuration `H`, `buildResolvConf` reads the host resolv.conf only if one of the
deduplicated explicit lists is empty and then calls `resolvconf.Build` once, with `P`
followed by the final nameservers, the final search domains and the final options,
where the final value of a field is the deduplicated explicit list when that is
non-empty and the value extracted from `H` otherwise; it returns what `Build` returns.
When all three deduplicated explicit lists are non-empty, the call is the same for
every behaviour of the host configuration (also a failing read): the host resolv.conf
is not read and `Build` gets `P` followed by the explicit nameservers, the explicit
search domains and the explicit options. -/
theorem buildResolvConf_written_lists (env : Env) (cmd : Flags) (path : String)
    (P : List String) (hP : slirp4Dns env = .ok P) :
    (∀ H : File, filteredHostConf env = .ok H →
      buildResolvConf env cmd path =
        (hostReads cmd ++
          [.ResolvconfBuild path
            (P ++ explicitOrHost cmd.dns (env.GetNameservers H.Content .IPv4))
            (explicitOrHost cmd.dnsSearch (env.GetSearchDomains H.Content))
            (explicitOrHost (cmd.dnsOpt ++ cmd.dnsOption) (env.GetOptions H.Content))],
          env.Build path
            (P ++ explicitOrHost cmd.dns (env.GetNameservers H.Content .IPv4))
            (explicitOrHost cmd.dnsSearch (env.GetSearchDomains H.Content))
            (explicitOrHost (cmd.dnsOpt ++ cmd.dnsOption) (env.GetOptions H.Content)))) ∧
    (DedupeStrSlice cmd.dns ≠ [] → DedupeStrSlice cmd.dnsSearch ≠ [] →
      DedupeStrSlice (cmd.dnsOpt ++ cmd.dnsOption) ≠ [] →
      ∀ (get : GetResult) (filter : String → Bool → Except String File)
        (getSearch : String → List String) (getNS : String → IPKind → List String)
        (getOpts : String → List String),
        buildResolvConf
            { env with Get := get, FilterResolvDNS := filter, GetSearchDomains := getSearch,
                       GetNameservers := getNS, GetOptions := getOpts } cmd path =
          ([.ResolvconfBuild path (P ++ DedupeStrSlice cmd.dns)
              (DedupeStrSlice cmd.dnsSearch) (DedupeStrSlice (cmd.dnsOpt ++ cmd.dnsOption))],
            env.Build path (P ++ DedupeStrSlice cmd.dns) (DedupeStrSlice cmd.dnsSearch)
              (DedupeStrSlice (cmd.dnsOpt ++ cmd.dnsOption)))) := by
  constructor
  · intro H hH
    unfold buildResolvConf explicitOrHost hostReads
    simp only [hP, hH, List.length_eq_zero]
    by_cases h1 : DedupeStrSlice cmd.dns = [] <;>
      by_cases h2 : DedupeStrSlice cmd.dnsSearch = [] <;>
      by_cases h3 : DedupeStrSlice (cmd.dnsOpt ++ cmd.dnsOption) = [] <;>
      simp [h1, h2, h3]
  · intro h1 h2 h3 get filter getSearch getNS getOpts
    have hP2 : slirp4Dns
        { env with Get := get, FilterResolvDNS := filter, GetSearchDomains := getSearch,
                   GetNameservers := getNS, GetOptions := getOpts } = .ok P := hP
    unfold buildResolvConf
    simp only [hP2, List.length_eq_zero]
    simp [h1, h2, h3]

/-- Claim C1 at the rootless sample host with `--dns-search example.com` only: the
nameservers are the proxy address followed by the host nameserver, the search domain is
the explicit one and the options are those of the host. -/
theorem buildResolvConf_written_lists_witness :
    buildResolvConf rootlessEnv { noFlags with dnsSearch := ["example.com"] }
        "/state/resolv.conf" =
      ([.ResolvconfGet,
        .ResolvconfBuild "/state/resolv.conf" ["10.0.2.3", "192.0.2.53"] ["example.com"]
          ["ndots:2"]], none) := by
  have h := (buildResolvConf_written_lists rootlessEnv
    { noFlags with dnsSearch := ["example.com"] } "/state/resolv.conf" ["10.0.2.3"]
    rfl).1 ⟨"host"⟩ rfl
  rw [h]
  decide

/-! ## `buildResolvConf`: duplicates -/

/-- Claim C8 fails as stated. On the rootless sample host with `--dns 10.0.2.3`
(the address of the proxy), a search domain and an option, the nameserver list handed
to `resolvconf.Build` is `10.0.2.3` twice; on the rootful sample host without DNS
flags, the search domains are written as extracted from the host resolv.conf, with
`corp.example` twice. -/
theorem buildResolvConf_writes_duplicates :
    (buildResolvConf rootlessEnv dnsFlags "/state/resolv.conf" =
        ([.ResolvconfBuild "/state/resolv.conf" ["10.0.2.3", "10.0.2.3"] ["example.com"]
          ["ndots:1"]], none) ∧
      ¬ (["10.0.2.3", "10.0.2.3"] : List String).Nodup) ∧
    (buildResolvConf sampleEnv noFlags "/state/resolv.conf" =
        ([.ResolvconfGet,
          .ResolvconfBuild "/state/resolv.conf" ["192.0.2.53"]
            ["corp.example", "corp.example"] ["ndots:2"]], none) ∧
      ¬ (["corp.example", "corp.example"] : List String).Nodup) := by
  refine ⟨⟨by decide, by decide⟩, ⟨by decide, by decide⟩⟩

/-- Claim C8 as amended. Whenever `buildResolvConf` calls `resolvconf.Build`, the
nameserver list is the rootless-proxy addresses `P` followed by a list `N`; if the
explicit nameserver list is non-empty, `N` is its deduplication and contains no entry
twice, and likewise the search-domain list and the option list contain no entry twice
if the explicit list of that field is non-empty. -/
theorem buildResolvConf_explicit_nodup (env : Env) (cmd : Flags)
    (path target : String) (ns search opts : List String)
    (hBuild : Event.ResolvconfBuild target ns search opts ∈ (buildResolvConf env cmd path).1) :
    ∃ P N, slirp4Dns env = .ok P ∧ ns = P ++ N ∧
      (cmd.dns ≠ [] → N = DedupeStrSlice cmd.dns ∧ N.Nodup) ∧
      (cmd.dnsSearch ≠ [] → search = DedupeStrSlice cmd.dnsSearch ∧ search.Nodup) ∧
      (cmd.dnsOpt ++ cmd.dnsOption ≠ [] →
        opts = DedupeStrSlice (cmd.dnsOpt ++ cmd.dnsOption) ∧ opts.Nodup) := by
  unfold buildResolvConf at hBuild
  cases hP : slirp4Dns env with
  | error err => simp [hP] at hBuild
  | ok P =>
    have e1 := DedupeStrSlice_eq_nil cmd.dns
    have e2 := DedupeStrSlice_eq_nil cmd.dnsSearch
    have e3 := DedupeStrSlice_eq_nil (cmd.dnsOpt ++ cmd.dnsOption)
    have n1 := DedupeStrSlice_nodup cmd.dns
    have n2 := DedupeStrSlice_nodup cmd.dnsSearch
    have n3 := DedupeStrSlice_nodup (cmd.dnsOpt ++ cmd.dnsOption)
    simp only [hP, List.length_eq_zero] at hBuild
    split at hBuild
    · cases hH : filteredHostConf env with
      | error err => simp [hH] at hBuild
      | ok H =>
        simp only [hH, List.mem_cons, List.mem_singleton, Event.ResolvconfBuild.injEq,
          List.not_mem_nil, or_false, false_or, reduceCtorEq] at hBuild
        obtain ⟨_, hns, hsearch, hopts⟩ := hBuild
        refine ⟨P, _, rfl, hns, ?_, ?_, ?_⟩
        · intro h
          have : DedupeStrSlice cmd.dns ≠ [] := fun hh => h (e1.1 hh)
          simp [this, n1]
        · intro h
          have : DedupeStrSlice cmd.dnsSearch ≠ [] := fun hh => h (e2.1 hh)
          rw [hsearch]
          simp [this, n2]
        · intro h
          have : DedupeStrSlice (cmd.dnsOpt ++ cmd.dnsOption) ≠ [] := fun hh => h (e3.1 hh)
          rw [hopts]
          simp [this, n3]
    · simp only [List.mem_singleton, Event.ResolvconfBuild.injEq] at hBuild
      obtain ⟨_, hns, hsearch, hopts⟩ := hBuild
      exact ⟨P, _, rfl, hns, fun _ => ⟨rfl, n1⟩, fun _ => ⟨hsearch, hsearch ▸ n2⟩,
        fun _ => ⟨hopts, hopts ▸ n3⟩⟩

/-- Claim C8 as amended, on the rootless sample host with `--dns 10.0.2.3
--dns-search example.com --dns-opt ndots:1`. -/
theorem buildResolvConf_explicit_nodup_witness :
    ∃ P N, slirp4Dns rootlessEnv = .ok P ∧ ["10.0.2.3", "10.0.2.3"] = P ++ N ∧
      (dnsFlags.dns ≠ [] → N = DedupeStrSlice dnsFlags.dns ∧ N.Nodup) ∧
      (dnsFlags.dnsSearch ≠ [] →
        ["example.com"] = DedupeStrSlice dnsFlags.dnsSearch ∧
          (["example.com"] : List String).Nodup) ∧
      (dnsFlags.dnsOpt ++ dnsFlags.dnsOption ≠ [] →
        ["ndots:1"] = DedupeStrSlice (dnsFlags.dnsOpt ++ dnsFlags.dnsOption) ∧
          (["ndots:1"] : List String).Nodup) :=
  buildResolvConf_explicit_nodup rootlessEnv dnsFlags "/state/resolv.conf"
    "/state/resolv.conf" ["10.0.2.3", "10.0.2.3"] ["example.com"] ["ndots:1"] (by decide)

/-! ## `verifyCNINetwork` -/

theorem InStringSlice_macValidNetworks (netType : String) :
    InStringSlice macValidNetworks netType = true ↔
      netType = "bridge" ∨ netType = "macvlan" := by
  simp only [InStringSlice, macValidNetworks, List.any_cons, List.any_nil, Bool.or_false,
    Bool.or_eq_true, beq_iff_eq]
  constructor
  · rintro (h | h)
    · exact Or.inl h.symm
    · exact Or.inr h.symm
  · rintro (h | h)
    · exact Or.inl h.symm
    · exact Or.inr h.symm

theorem verifyCNINetworkLoop_accepted (netMap : NetworkMap) (mac t : String)
    (rest : List String) (hPlugins : ∀ name cfg, netMap name = some cfg → cfg.Plugins ≠ [])
    (h : tokenAccepted netMap mac t = true) :
    verifyCNINetworkLoop netMap mac (t :: rest) = verifyCNINetworkLoop netMap mac rest := by
  unfold tokenAccepted at h
  cases hcfg : netMap t with
  | none => simp [hcfg] at h
  | some cfg =>
    have hne := hPlugins t cfg hcfg
    cases hpl : cfg.Plugins with
    | nil => exact absurd hpl hne
    | cons plugin more =>
      simp only [hcfg, hpl, List.head?_cons, Bool.or_eq_true, decide_eq_true_eq] at h
      rw [verifyCNINetworkLoop]
      simp only [hcfg, hpl]
      have hin := InStringSlice_macValidNetworks plugin.Type_
      by_cases hmac : mac = ""
      · simp [hmac]
      · have h2 : plugin.Type_ = "bridge" ∨ plugin.Type_ = "macvlan" := by
          rcases h with h | h
          · exact absurd h hmac
          · exact h
        simp [hin.2 h2]

theorem verifyCNINetworkLoop_rejected (netMap : NetworkMap) (mac t : String)
    (rest : List String) (h : tokenAccepted netMap mac t = false) :
    (netMap t = none →
      verifyCNINetworkLoop netMap mac (t :: rest) =
        .ret (some ("network " ++ t ++ " not found"))) ∧
    (∀ cfg plugin, netMap t = some cfg → cfg.Plugins.head? = some plugin →
      verifyCNINetworkLoop netMap mac (t :: rest) =
        .ret (some (plugin.Type_ ++ " interfaces on network " ++ t ++
          " do not support --mac-address"))) := by
  constructor
  · intro hnone
    rw [verifyCNINetworkLoop]
    simp [hnone]
  · intro cfg plugin hcfg hhead
    cases hpl : cfg.Plugins with
    | nil => simp [hpl] at hhead
    | cons first more =>
      simp only [hpl, List.head?_cons, Option.some.injEq] at hhead
      subst hhead
      unfold tokenAccepted at h
      simp only [hcfg, hpl, List.head?_cons, Bool.or_eq_false_iff, decide_eq_false_iff_not]
        at h
      have hin := InStringSlice_macValidNetworks first.Type_
      have hnot : InStringSlice macValidNetworks first.Type_ = false := by
        cases hv : InStringSlice macValidNetworks first.Type_ with
        | false => rfl
        | true =>
          rcases hin.1 hv with h2 | h2
          · exact absurd h2 h.2.1
          · exact absurd h2 h.2.2
      rw [verifyCNINetworkLoop]
      simp [hcfg, hpl, h.1, hnot]

theorem verifyCNINetworkLoop_rejected_ne (netMap : NetworkMap) (mac t : String)
    (rest : List String) (hPlugins : ∀ name cfg, netMap name = some cfg → cfg.Plugins ≠ [])
    (h : tokenAccepted netMap mac t = false) :
    verifyCNINetworkLoop netMap mac (t :: rest) ≠ .ret none := by
  have hr := verifyCNINetworkLoop_rejected netMap mac t rest h
  cases hcfg : netMap t with
  | none => rw [hr.1 hcfg]; simp
  | some cfg =>
    cases hpl : cfg.Plugins with
    | nil => exact absurd hpl (hPlugins t cfg hcfg)
    | cons first more =>
      rw [hr.2 cfg first hcfg (by simp [hpl])]
      simp

theorem verifyCNINetworkLoop_iff (netMap : NetworkMap) (mac : String)
    (hPlugins : ∀ name cfg, netMap name = some cfg → cfg.Plugins ≠ []) (netSlice : List String) :
    verifyCNINetworkLoop netMap mac netSlice = .ret none ↔
      ∀ t ∈ netSlice, tokenAccepted netMap mac t = true := by
  induction netSlice with
  | nil => simp [verifyCNINetworkLoop]
  | cons t rest ih =>
    cases ht : tokenAccepted netMap mac t with
    | true =>
      rw [verifyCNINetworkLoop_accepted netMap mac t rest hPlugins ht, ih]
      simp [ht]
    | false =>
      have := verifyCNINetworkLoop_rejected_ne netMap mac t rest hPlugins ht
      simp [this, ht]

theorem verifyCNINetworkLoop_skip (netMap : NetworkMap) (mac : String)
    (hPlugins : ∀ name cfg, netMap name = some cfg → cfg.Plugins ≠ []) (rest : List String) :
    ∀ front : List String, (∀ u ∈ front, tokenAccepted netMap mac u = true) →
      verifyCNINetworkLoop netMap mac (front ++ rest) =
        verifyCNINetworkLoop netMap mac rest := by
  intro front
  induction front with
  | nil => intro _; rfl
  | cons u more ih =>
    intro h
    rw [List.cons_append,
      verifyCNINetworkLoop_accepted netMap mac u _ hPlugins (h u (by simp))]
    exact ih (fun v hv => h v (by simp [hv]))

/-- Claim C2. Over a network map `netMap` in which every network has at least one
plugin, `verifyCNINetwork` returns no error if and only if every token is a key of the
map and, when the MAC address is non-empty, the type of the first plugin of its network
is `bridge` or `macvlan`. Otherwise the error is that of the first token in list order
that fails this test: `network <name> not found` when the token is no key of the map,
and `<type> interfaces on network <name> do not support --mac-address` when it is. -/
theorem verifyCNINetwork_iff_tokens_accepted (env : Env) (cmd : Flags)
    (netSlice : List String) (mac : String) (e : CNIEnv) (netMap : NetworkMap)
    (hEnv : env.NewCNIEnv cmd.cniPath cmd.cniNetconfpath = .ok e)
    (hMap : e.NetworkMap = .ok netMap)
    (hPlugins : ∀ name cfg, netMap name = some cfg → cfg.Plugins ≠ []) :
    (verifyCNINetwork env cmd netSlice mac = .ret none ↔
      ∀ t ∈ netSlice, tokenAccepted netMap mac t = true) ∧
    (∀ front t rest, netSlice = front ++ t :: rest →
      (∀ u ∈ front, tokenAccepted netMap mac u = true) →
      tokenAccepted netMap mac t = false →
      (netMap t = none →
        verifyCNINetwork env cmd netSlice mac =
          .ret (some ("network " ++ t ++ " not found"))) ∧
      (∀ cfg plugin, netMap t = some cfg → cfg.Plugins.head? = some plugin →
        mac ≠ "" ∧ plugin.Type_ ≠ "bridge" ∧ plugin.Type_ ≠ "macvlan" ∧
        verifyCNINetwork env cmd netSlice mac =
          .ret (some (plugin.Type_ ++ " interfaces on network " ++ t ++
            " do not support --mac-address")))) := by
  have hv : verifyCNINetwork env cmd netSlice mac =
      verifyCNINetworkLoop netMap mac netSlice := by
    simp [verifyCNINetwork, hEnv, hMap]
  rw [hv]
  refine ⟨verifyCNINetworkLoop_iff netMap mac hPlugins netSlice, ?_⟩
  intro front t rest hsplit hfront ht
  subst hsplit
  rw [verifyCNINetworkLoop_skip netMap mac hPlugins (t :: rest) front hfront]
  have hr := verifyCNINetworkLoop_rejected netMap mac t rest ht
  refine ⟨hr.1, ?_⟩
  intro cfg plugin hcfg hhead
  refine ⟨?_, ?_, ?_, hr.2 cfg plugin hcfg hhead⟩
  all_goals
    unfold tokenAccepted at ht
    simp only [hcfg, hhead, Bool.or_eq_false_iff, decide_eq_false_iff_not] at ht
  · exact ht.1
  · exact ht.2.1
  · exact ht.2.2

theorem sampleNetworks_plugins :
    ∀ name cfg, sampleNetworks name = some cfg → cfg.Plugins ≠ [] := by
  intro name cfg h
  unfold sampleNetworks at h
  split_ifs at h <;> simp at h <;> subst h <;> simp

/-- Claim C2 on the sample host with a MAC address: the bridge network and the macvlan
network `mv0` are accepted; for `mv0, ov0, missing` the error names the overlay
network `ov0`, the first token that fails. -/
theorem verifyCNINetwork_iff_tokens_accepted_witness :
    verifyCNINetwork sampleEnv noFlags ["bridge", "mv0"] sampleMAC = .ret none ∧
    verifyCNINetwork sampleEnv noFlags ["mv0", "ov0", "missing"] sampleMAC =
      .ret (some "overlay interfaces on network ov0 do not support --mac-address") :=
  ⟨(verifyCNINetwork_iff_tokens_accepted sampleEnv noFlags ["bridge", "mv0"] sampleMAC
      ⟨.ok sampleNetworks⟩ sampleNetworks rfl rfl sampleNetworks_plugins).1.2 (by decide),
    ((verifyCNINetwork_iff_tokens_accepted sampleEnv noFlags ["mv0", "ov0", "missing"]
      sampleMAC ⟨.ok sampleNetworks⟩ sampleNetworks rfl rfl sampleNetworks_plugins).2
      ["mv0"] "ov0" ["missing"] rfl (by decide) (by decide)).2
      ⟨[⟨"overlay"⟩]⟩ ⟨"overlay"⟩ (by decide) rfl |>.2.2.2⟩

/-! ## `getContainerNetNSPath` -/

theorem getContainerNetNSPath_of_running (c : Container) (task : Task)
    (hT : c.Task = .ok task) (hS : task.Status = .ok .Running) :
    getContainerNetNSPath c = .ok ("/proc/" ++ toString task.Pid ++ "/ns/net") := by
  simp [getContainerNetNSPath, hT, hS]

theorem getContainerNetNSPath_ok_inv (c : Container) (path : String)
    (h : getContainerNetNSPath c = .ok path) :
    ∃ task, c.Task = .ok task ∧ task.Status = .ok .Running ∧
      path = "/proc/" ++ toString task.Pid ++ "/ns/net" := by
  unfold getContainerNetNSPath at h
  cases hT : c.Task with
  | error err => simp [hT] at h
  | ok task =>
    cases hS : task.Status with
    | error err => simp [hT, hS] at h
    | ok status =>
      by_cases hR : status = .Running
      · subst hR
        simp only [hT, hS, ne_eq, not_true_eq_false, if_false, Except.ok.injEq] at h
        exact ⟨task, rfl, hS, h.symm⟩
      · simp [hT, hS, hR] at h

/-- Claim C5. `getContainerNetNSPath` returns a path if and only if the task of the
container can be fetched, its status can be read and the status is `Running`, and the
path is then `/proc/<pid>/ns/net` with the process id of the task in decimal. For a
task whose status is read and is not `Running`, it returns no path but the error
`invalid target container: <id>, should be running`. -/
theorem getContainerNetNSPath_iff_running (c : Container) :
    (∀ path, getContainerNetNSPath c = .ok path ↔
      ∃ task, c.Task = .ok task ∧ task.Status = .ok .Running ∧
        path = "/proc/" ++ toString task.Pid ++ "/ns/net") ∧
    (∀ task status, c.Task = .ok task → task.Status = .ok status → status ≠ .Running →
      getContainerNetNSPath c =
        .error ("invalid target container: " ++ c.ID ++ ", should be running")) := by
  constructor
  · intro path
    constructor
    · exact getContainerNetNSPath_ok_inv c path
    · rintro ⟨task, hT, hS, hP⟩
      rw [hP]
      exact getContainerNetNSPath_of_running c task hT hS
  · intro task status hT hS hR
    unfold getContainerNetNSPath
    simp [hT, hS, hR]

/-- Claim C5 on the sample container: namespace path `/proc/4242/ns/net` while its task
runs, and the error naming `4f1c` once the task is stopped. -/
theorem getContainerNetNSPath_iff_running_witness :
    getContainerNetNSPath webContainer = .ok "/proc/4242/ns/net" ∧
    getContainerNetNSPath stoppedContainer =
      .error "invalid target container: 4f1c, should be running" :=
  ⟨((getContainerNetNSPath_iff_running webContainer).1 "/proc/4242/ns/net").2
      ⟨⟨.ok .Running, 4242⟩, rfl, rfl, by decide⟩,
    (getContainerNetNSPath_iff_running stoppedContainer).2 ⟨.ok .Stopped, 4242⟩ .Stopped
      rfl rfl (by decide)⟩

/-! ## `generateNetOpts`: the pre-checks of the peer-shared mode -/

theorem verifyContainerNetwork_eq_none (env : Env) (cmd : Flags) (netSlice : List String) :
    verifyContainerNetwork env cmd netSlice = none ↔
      ¬ (cmd.publishChanged = true ∨ cmd.hostnameChanged = true ∨ cmd.dnsChanged = true ∨
        cmd.addHostChanged = true ∨ env.GOOS ≠ "linux" ∨ netSlice.length > 1) := by
  unfold verifyContainerNetwork
  split_ifs <;> simp_all

theorem verifyContainerNetwork_mem (env : Env) (cmd : Flags) (netSlice : List String)
    (err : String) (h : verifyContainerNetwork env cmd netSlice = some err) :
    err ∈ containerModeErrors := by
  unfold verifyContainerNetwork at h
  unfold containerModeErrors
  split_ifs at h <;> simp at h <;> subst h <;> simp

/-- Claim C3. When the detected mode is peer-shared and one of the following holds:
the publish, hostname, dns or add-host flag is set, the platform is not linux, or there
is more than one network token, `generateNetOpts` returns one of the conflict errors
and nil for everything else, and no call has been recorded: neither the creation of the
runtime client nor the walk of the containers. With the publish flag and no MAC address
the error is the one for port publishing. If none of the six holds and there is no MAC
address, `verifyContainerNetwork` returns no error. -/
theorem generateNetOpts_container_conflicts (env : Env) (cmd : Flags)
    (dataStore stateDir ns id mac : String)
    (hMac : getMACAddress env cmd (getNetworkSlice cmd) = .ok mac)
    (hDetect : env.Detect (getNetworkSlice cmd) = .ok .Container) :
    ((cmd.publishChanged = true ∨ cmd.hostnameChanged = true ∨ cmd.dnsChanged = true ∨
        cmd.addHostChanged = true ∨ env.GOOS ≠ "linux" ∨
        (getNetworkSlice cmd).length > 1) →
      ∃ err ∈ containerModeErrors,
        generateNetOpts env cmd dataStore stateDir ns id = ([], .ret (.failure err))) ∧
    (mac = "" → cmd.publishChanged = true →
      generateNetOpts env cmd dataStore stateDir ns id =
        ([], .ret (.failure
          "conflicting options: port publishing and the container type network mode"))) ∧
    (mac = "" →
      ¬ (cmd.publishChanged = true ∨ cmd.hostnameChanged = true ∨ cmd.dnsChanged = true ∨
        cmd.addHostChanged = true ∨ env.GOOS ≠ "linux" ∨
        (getNetworkSlice cmd).length > 1) →
      verifyContainerNetwork env cmd (getNetworkSlice cmd) = none) := by
  refine ⟨?_, ?_, ?_⟩
  · intro hc
    by_cases hm : mac = ""
    · cases hv : verifyContainerNetwork env cmd (getNetworkSlice cmd) with
      | none => exact absurd hc ((verifyContainerNetwork_eq_none env cmd _).1 hv)
      | some err =>
        refine ⟨err, verifyContainerNetwork_mem env cmd _ err hv, ?_⟩
        unfold generateNetOpts
        simp [hMac, hDetect, hm, hv]
    · refine ⟨"conflicting options: mac-address and the network mode", by
        simp [containerModeErrors], ?_⟩
      unfold generateNetOpts
      simp [hMac, hDetect, hm]
  · intro hm hp
    have hv : verifyContainerNetwork env cmd (getNetworkSlice cmd) =
        some "conflicting options: port publishing and the container type network mode" := by
      simp [verifyContainerNetwork, hp]
    unfold generateNetOpts
    simp [hMac, hDetect, hm, hv]
  · intro _ hc
    exact (verifyContainerNetwork_eq_none env cmd _).2 hc

/-- Claim C3 on the sample host with `--network container:web -p 8080:80`: the conflict
error for port publishing, with no call recorded. -/
theorem generateNetOpts_container_conflicts_witness :
    generateNetOpts sampleEnv peerPublishFlags "/data" "/state" "default" "c0" =
      ([], .ret (.failure
        "conflicting options: port publishing and the container type network mode")) :=
  (generateNetOpts_container_conflicts sampleEnv peerPublishFlags "/data" "/state"
    "default" "c0" "" rfl rfl).2.1 rfl rfl

/-! ## `generateNetOpts`: a MAC address in the host and none modes -/

/-- Claim C4. With a non-empty MAC address that `net.ParseMAC` accepts: when the
detected mode is host, `generateNetOpts` returns the error `conflicting options:
mac-address and the network mode` and nil for everything else; when the detected mode
is none, it returns no error, no mutation, the token list as `getNetworkSlice` gave
it, the IP address, no port mapping and the MAC address. -/
theorem generateNetOpts_mac_host_and_none (env : Env) (cmd : Flags)
    (dataStore stateDir ns id : String) (hNonEmpty : cmd.macAddress ≠ "")
    (hValid : env.ParseMAC cmd.macAddress = none) :
    (env.Detect (getNetworkSlice cmd) = .ok .Host →
      generateNetOpts env cmd dataStore stateDir ns id =
        ([], .ret (.failure "conflicting options: mac-address and the network mode"))) ∧
    (env.Detect (getNetworkSlice cmd) = .ok .None →
      generateNetOpts env cmd dataStore stateDir ns id =
        ([], .ret ⟨[], getNetworkSlice cmd, cmd.ip, [], cmd.macAddress, none⟩)) := by
  have hMac : getMACAddress env cmd (getNetworkSlice cmd) = .ok cmd.macAddress := by
    simp [getMACAddress, hNonEmpty, hValid]
  constructor
  · intro hDetect
    unfold generateNetOpts
    simp [hMac, hDetect, hNonEmpty]
  · intro hDetect
    unfold generateNetOpts
    simp [hMac, hDetect]

/-- Claim C4 on the sample host: `--network host` with a MAC address is the conflict
error, `--network none` with a MAC address succeeds without a mutation. -/
theorem generateNetOpts_mac_host_and_none_witness :
    generateNetOpts sampleEnv hostMacFlags "/data" "/state" "default" "c0" =
      ([], .ret (.failure "conflicting options: mac-address and the network mode")) ∧
    generateNetOpts sampleEnv noneMacFlags "/data" "/state" "default" "c0" =
      ([], .ret ⟨[], ["none"], "10.4.0.9", [], "02:42:ac:11:00:02", none⟩) :=
  ⟨(generateNetOpts_mac_host_and_none sampleEnv hostMacFlags "/data" "/state" "default"
      "c0" (by decide) rfl).1 rfl,
    (generateNetOpts_mac_host_and_none sampleEnv noneMacFlags "/data" "/state" "default"
      "c0" (by decide) rfl).2 rfl⟩

/-! ## `generateNetOpts`: the walk of the peer-shared mode -/

theorem Walk_error {σ : Type} (env : Env) (f : Found → σ → Option String × σ)
    (req err : String) (st : σ) (h : env.Containers req = .error err) :
    Walk env f req st = ((-1, some err), st) := by
  simp [Walk, h]

theorem Walk_none {σ : Type} (env : Env) (f : Found → σ → Option String × σ)
    (req : String) (st : σ) (h : env.Containers req = .ok []) :
    Walk env f req st = ((0, none), st) := by
  simp [Walk, h, walkLoop]

theorem Walk_single (env : Env) (cmd : Flags) (dataStore ns name req : String)
    (c : Container) (st : List SpecOpts × List String) (h : env.Containers req = .ok [c]) :
    Walk env (OnFound env cmd dataStore ns name) req st =
      match OnFound env cmd dataStore ns name ⟨c, req, 0, 1⟩ st with
      | (some err, st) => ((-1, some err), st)
      | (none, st) => ((1, none), st) := by
  simp only [Walk, h, walkLoop, List.length_singleton]
  cases hf : OnFound env cmd dataStore ns name ⟨c, req, 0, 1⟩ st with
  | mk e st2 =>
    cases e with
    | none => simp
    | some err => simp

theorem Walk_many (env : Env) (cmd : Flags) (dataStore ns name req : String)
    (cs : List Container) (st : List SpecOpts × List String)
    (h : env.Containers req = .ok cs) (hlen : cs.length > 1) :
    Walk env (OnFound env cmd dataStore ns name) req st =
      ((-1, some ("multiple containers found with prefix: " ++ name)), st) := by
  cases cs with
  | nil => simp at hlen
  | cons c rest =>
    have hf : OnFound env cmd dataStore ns name ⟨c, req, 0, (c :: rest).length⟩ st =
        (some ("multiple containers found with prefix: " ++ name), st) := by
      simp only [OnFound]
      rw [if_pos hlen]
    simp only [Walk, h, walkLoop, hf]

theorem OnFound_ok_state (env : Env) (cmd : Flags) (dataStore ns name : String)
    (found : Found) (st st2 : List SpecOpts × List String)
    (h : OnFound env cmd dataStore ns name found st = (none, st2)) :
    ∃ task conStateDir hostname,
      found.Container.Task = .ok task ∧ task.Status = .ok .Running ∧
      env.getContainerStateDirPath cmd dataStore found.Container.ID = .ok conStateDir ∧
      found.Container.SpecHostname = .ok hostname ∧
      st2 = (st.1 ++
        [.WithLinuxNamespace ("/proc/" ++ toString task.Pid ++ "/ns/net"),
          .withCustomResolvConf (env.Join conStateDir "resolv.conf"),
          .withCustomHosts (env.HostsPath dataStore ns found.Container.ID),
          .WithHostname hostname,
          .withCustomEtcHostname (env.Join conStateDir "hostname")],
        ["container:" ++ found.Container.ID]) := by
  unfold OnFound at h
  split_ifs at h with hcount
  · simp at h
  · cases hdir : env.getContainerStateDirPath cmd dataStore found.Container.ID with
    | error err => simp [hdir] at h
    | ok conStateDir =>
      cases hhost : found.Container.SpecHostname with
      | error err => simp [hdir, hhost] at h
      | ok hostname =>
        cases hpath : getContainerNetNSPath found.Container with
        | error err => simp [hdir, hhost, hpath] at h
        | ok netNSPath =>
          obtain ⟨task, hT, hS, hP⟩ :=
            getContainerNetNSPath_ok_inv found.Container netNSPath hpath
          simp only [hdir, hhost, hpath, Prod.mk.injEq, true_and] at h
          exact ⟨task, conStateDir, hostname, hT, hS, rfl, rfl, by rw [← h, hP]⟩

/-- Claim C6. In the peer-shared mode, once the pre-checks have passed (no MAC address,
`verifyContainerNetwork` without error, one token of the form `<kind>:<ref>`, the
runtime client created): when the walk finds no container for `<ref>`,
`generateNetOpts` returns the error `no such container: <ref>`; when it finds more than
one, the error `multiple containers found with prefix: <ref>`; in both cases every
other returned value is nil. `generateNetOpts` returns without error only if the walk
finds exactly one container. -/
theorem generateNetOpts_container_match_count (env : Env) (cmd : Flags)
    (dataStore stateDir ns id tok kind ref : String)
    (hMac : cmd.macAddress = "")
    (hDetect : env.Detect (getNetworkSlice cmd) = .ok .Container)
    (hPre : verifyContainerNetwork env cmd (getNetworkSlice cmd) = none)
    (hTok : getNetworkSlice cmd = [tok]) (hSplit : Split tok ':' = [kind, ref])
    (hClient : env.NewClient cmd.namespaceFlag cmd.address = none) :
    (env.Containers ref = .ok [] →
      generateNetOpts env cmd dataStore stateDir ns id =
        ([.NewClient cmd.namespaceFlag cmd.address, .Walk ref],
          .ret (.failure ("no such container: " ++ ref)))) ∧
    (∀ cs, env.Containers ref = .ok cs → cs.length > 1 →
      generateNetOpts env cmd dataStore stateDir ns id =
        ([.NewClient cmd.namespaceFlag cmd.address, .Walk ref],
          .ret (.failure ("multiple containers found with prefix: " ++ ref)))) ∧
    (∀ r, (generateNetOpts env cmd dataStore stateDir ns id).2 = .ret r → r.err = none →
      ∃ c, env.Containers ref = .ok [c]) := by
  have hM : getMACAddress env cmd [tok] = .ok "" := by simp [getMACAddress, hMac]
  rw [hTok] at hDetect hPre
  have hgen : generateNetOpts env cmd dataStore stateDir ns id =
      match Walk env (OnFound env cmd dataStore ns ref) ref ([], [tok]) with
      | ((_, some err), _) =>
        ([.NewClient cmd.namespaceFlag cmd.address, .Walk ref], .ret (.failure err))
      | ((n, none), (opts, netSlice)) =>
        if n = 0 then
          ([.NewClient cmd.namespaceFlag cmd.address, .Walk ref],
            .ret (.failure ("no such container: " ++ ref)))
        else
          ([.NewClient cmd.namespaceFlag cmd.address, .Walk ref],
            .ret ⟨opts, netSlice, cmd.ip, [], "", none⟩) := by
    unfold generateNetOpts
    simp only [hTok, hM, hDetect, hPre, hSplit, hClient]
    simp
  refine ⟨?_, ?_, ?_⟩
  · intro h0
    rw [hgen, Walk_none env _ ref _ h0]
    simp
  · intro cs hcs hlen
    rw [hgen, Walk_many env cmd dataStore ns ref ref cs _ hcs hlen]
  · intro r hr hok
    rw [hgen] at hr
    cases hcs : env.Containers ref with
    | error err =>
      rw [Walk_error env _ ref err _ hcs] at hr
      simp only [Ret.ret.injEq] at hr
      rw [← hr] at hok
      simp [NetOptsReturn.failure] at hok
    | ok cs =>
      match cs, hcs with
      | [], hcs =>
        rw [Walk_none env _ ref _ hcs] at hr
        simp only [if_true, Ret.ret.injEq] at hr
        rw [← hr] at hok
        simp [NetOptsReturn.failure] at hok
      | [c], _ => exact ⟨c, rfl⟩
      | c :: d :: rest, hcs =>
        rw [Walk_many env cmd dataStore ns ref ref _ _ hcs (by simp)] at hr
        simp only [Ret.ret.injEq] at hr
        rw [← hr] at hok
        simp [NetOptsReturn.failure] at hok

/-- Claim C6 on the sample host: `container:ghost` matches no container, and on the
host where every reference matches two containers `container:web` is ambiguous. -/
theorem generateNetOpts_container_match_count_witness :
    generateNetOpts sampleEnv ghostFlags "/data" "/state" "default" "c0" =
      ([.NewClient "default" "/run/containerd/containerd.sock", .Walk "ghost"],
        .ret (.failure "no such container: ghost")) ∧
    generateNetOpts crowdedEnv peerFlags "/data" "/state" "default" "c0" =
      ([.NewClient "default" "/run/containerd/containerd.sock", .Walk "web"],
        .ret (.failure "multiple containers found with prefix: web")) :=
  ⟨(generateNetOpts_container_match_count sampleEnv ghostFlags "/data" "/state" "default"
      "c0" "container:ghost" "container" "ghost" rfl rfl rfl rfl (by decide) rfl).1 rfl,
    (generateNetOpts_container_match_count crowdedEnv peerFlags "/data" "/state" "default"
      "c0" "container:web" "container" "web" rfl rfl rfl rfl (by decide) rfl).2.1
      [webContainer, stoppedContainer] rfl (by decide)⟩

/-! ## `generateNetOpts`: an empty reference -/

/-- The guard against an empty reference is not in `generateNetOpts` itself: for a
classifier that reports the container type for the token `container:`, the check of
lines 189-192 passes, the containers are walked with the empty reference, and when
that walk finds one container whose task runs, the five mutations of that container
are returned without error. -/
theorem generateNetOpts_unguarded_reference (env : Env) (cmd : Flags)
    (dataStore stateDir ns id : String) (c : Container) (task : Task)
    (conStateDir hostname : String)
    (hMac : cmd.macAddress = "")
    (hTok : getNetworkSlice cmd = ["container:"])
    (hDetect : env.Detect ["container:"] = .ok .Container)
    (hPre : verifyContainerNetwork env cmd ["container:"] = none)
    (hClient : env.NewClient cmd.namespaceFlag cmd.address = none)
    (hOne : env.Containers "" = .ok [c])
    (hTask : c.Task = .ok task) (hRun : task.Status = .ok .Running)
    (hDir : env.getContainerStateDirPath cmd dataStore c.ID = .ok conStateDir)
    (hHost : c.SpecHostname = .ok hostname) :
    generateNetOpts env cmd dataStore stateDir ns id =
      ([.NewClient cmd.namespaceFlag cmd.address, .Walk ""],
        .ret ⟨[.WithLinuxNamespace ("/proc/" ++ toString task.Pid ++ "/ns/net"),
            .withCustomResolvConf (env.Join conStateDir "resolv.conf"),
            .withCustomHosts (env.HostsPath dataStore ns c.ID),
            .WithHostname hostname,
            .withCustomEtcHostname (env.Join conStateDir "hostname")],
          ["container:" ++ c.ID], cmd.ip, [], "", none⟩) := by
  have hM : getMACAddress env cmd ["container:"] = .ok "" := by simp [getMACAddress, hMac]
  have hSplit : Split "container:" ':' = ["container", ""] := by decide
  have hPath : getContainerNetNSPath c = .ok ("/proc/" ++ toString task.Pid ++ "/ns/net") :=
    getContainerNetNSPath_of_running c task hTask hRun
  have hFound : OnFound env cmd dataStore ns "" ⟨c, "", 0, 1⟩ ([], ["container:"]) =
      (none,
        ([.WithLinuxNamespace ("/proc/" ++ toString task.Pid ++ "/ns/net"),
            .withCustomResolvConf (env.Join conStateDir "resolv.conf"),
            .withCustomHosts (env.HostsPath dataStore ns c.ID),
            .WithHostname hostname,
            .withCustomEtcHostname (env.Join conStateDir "hostname")],
          ["container:" ++ c.ID])) := by
    simp [OnFound, hDir, hHost, hPath]
  have hWalk := Walk_single env cmd dataStore ns "" "" c ([], ["container:"]) hOne
  rw [hFound] at hWalk
  unfold generateNetOpts
  simp only [hTok, hM, hDetect, hPre, hSplit, hClient]
  simp [hWalk]

/-! ## `generateNetOpts`: the mutations of each mode -/

theorem generateNetOpts_container_opts (env : Env) (cmd : Flags)
    (dataStore stateDir ns id : String) (trace : List Event) (r : NetOptsReturn)
    (hDetect : env.Detect (getNetworkSlice cmd) = .ok .Container)
    (h : generateNetOpts env cmd dataStore stateDir ns id = (trace, .ret r))
    (hok : r.err = none) :
    ∃ first kind ref c task conStateDir hostname,
      getNetworkSlice cmd = [first] ∧ Split first ':' = [kind, ref] ∧
      env.Containers ref = .ok [c] ∧ c.Task = .ok task ∧ task.Status = .ok .Running ∧
      env.getContainerStateDirPath cmd dataStore c.ID = .ok conStateDir ∧
      c.SpecHostname = .ok hostname ∧
      r.opts =
        [.WithLinuxNamespace ("/proc/" ++ toString task.Pid ++ "/ns/net"),
          .withCustomResolvConf (env.Join conStateDir "resolv.conf"),
          .withCustomHosts (env.HostsPath dataStore ns c.ID),
          .WithHostname hostname,
          .withCustomEtcHostname (env.Join conStateDir "hostname")] ∧
      r.netSlice = ["container:" ++ c.ID] := by
  unfold generateNetOpts at h
  cases hM : getMACAddress env cmd (getNetworkSlice cmd) with
  | error err =>
    simp only [hM, Prod.mk.injEq, Ret.ret.injEq] at h
    rw [← h.2] at hok
    simp [NetOptsReturn.failure] at hok
  | ok mac =>
    simp only [hM, hDetect] at h
    split_ifs at h with hmac
    · simp only [Prod.mk.injEq, Ret.ret.injEq] at h
      rw [← h.2] at hok
      simp [NetOptsReturn.failure] at hok
    · cases hv : verifyContainerNetwork env cmd (getNetworkSlice cmd) with
      | some err =>
        simp only [hv, Prod.mk.injEq, Ret.ret.injEq] at h
        rw [← h.2] at hok
        simp [NetOptsReturn.failure] at hok
      | none =>
        simp only [hv] at h
        cases hts : getNetworkSlice cmd with
        | nil => simp [hts] at h
        | cons first more =>
          have hmore : more = [] := by
            have hno := (verifyContainerNetwork_eq_none env cmd _).1 hv
            rw [hts] at hno
            cases more with
            | nil => rfl
            | cons second others =>
              exact absurd (Or.inr (Or.inr (Or.inr (Or.inr (Or.inr (by simp)))))) hno
          subst hmore
          simp only [hts] at h
          split_ifs at h with hlen
          · simp only [Prod.mk.injEq, Ret.ret.injEq] at h
            rw [← h.2] at hok
            simp [NetOptsReturn.failure] at hok
          · obtain ⟨kind, ref, hsp⟩ := List.length_eq_two.1 (not_not.1 hlen)
            have href : (Split first ':').getD 1 "" = ref := by rw [hsp]; rfl
            simp only [href] at h
            cases hcl : env.NewClient cmd.namespaceFlag cmd.address with
            | some err =>
              simp only [hcl, Prod.mk.injEq, Ret.ret.injEq] at h
              rw [← h.2] at hok
              simp [NetOptsReturn.failure] at hok
            | none =>
              simp only [hcl] at h
              cases hcs : env.Containers ref with
              | error err =>
                rw [Walk_error env _ _ err _ hcs] at h
                simp only [Prod.mk.injEq, Ret.ret.injEq] at h
                rw [← h.2] at hok
                simp [NetOptsReturn.failure] at hok
              | ok cs =>
                match cs, hcs with
                | [], hcs =>
                  rw [Walk_none env _ _ _ hcs] at h
                  simp only [if_true, Prod.mk.injEq, Ret.ret.injEq] at h
                  rw [← h.2] at hok
                  simp [NetOptsReturn.failure] at hok
                | c :: d :: rest, hcs =>
                  rw [Walk_many env cmd dataStore ns _ _ _ _ hcs (by simp)] at h
                  simp only [Prod.mk.injEq, Ret.ret.injEq] at h
                  rw [← h.2] at hok
                  simp [NetOptsReturn.failure] at hok
                | [c], hcs =>
                  rw [Walk_single env cmd dataStore ns _ _ c _ hcs] at h
                  cases hf : OnFound env cmd dataStore ns ref ⟨c, ref, 0, 1⟩
                      ([], [first]) with
                  | mk e st2 =>
                    cases e with
                    | some err =>
                      simp only [hf, Prod.mk.injEq, Ret.ret.injEq] at h
                      rw [← h.2] at hok
                      simp [NetOptsReturn.failure] at hok
                    | none =>
                      obtain ⟨task, conStateDir, hostname, hT, hS, hD, hH, hst⟩ :=
                        OnFound_ok_state env cmd dataStore ns _ _ _ _ hf
                      simp only [hf] at h
                      subst hst
                      simp only [List.nil_append, Int.reduceEq, Nat.cast_one, one_ne_zero,
                        if_false, Prod.mk.injEq, Ret.ret.injEq] at h
                      refine ⟨first, kind, ref, c, task, conStateDir, hostname, rfl, hsp,
                        hcs, hT, hS, hD, hH, ?_, ?_⟩
                      · rw [← h.2]
                      · rw [← h.2]

theorem generateNetOpts_cni_opts (env : Env) (cmd : Flags)
    (dataStore stateDir ns id : String) (trace : List Event) (r : NetOptsReturn)
    (hDetect : env.Detect (getNetworkSlice cmd) = .ok .CNI)
    (h : generateNetOpts env cmd dataStore stateDir ns id = (trace, .ret r))
    (hok : r.err = none) :
    (env.GOOS = "linux" →
      ∃ etcHostsPath, env.AllocHostsFile dataStore ns id = .ok etcHostsPath ∧
        r.opts = [.withCustomResolvConf (env.Join stateDir "resolv.conf"),
          .withCustomHosts etcHostsPath]) ∧
    (env.GOOS ≠ "linux" → r.opts = []) := by
  unfold generateNetOpts at h
  cases hM : getMACAddress env cmd (getNetworkSlice cmd) with
  | error err =>
    simp only [hM, Prod.mk.injEq, Ret.ret.injEq] at h
    rw [← h.2] at hok
    simp [NetOptsReturn.failure] at hok
  | ok mac =>
    simp only [hM, hDetect] at h
    cases hv : verifyCNINetwork env cmd (getNetworkSlice cmd) mac with
    | panic => simp [hv] at h
    | ret e =>
      cases e with
      | some err =>
        simp only [hv, Prod.mk.injEq, Ret.ret.injEq] at h
        rw [← h.2] at hok
        simp [NetOptsReturn.failure] at hok
      | none =>
        simp only [hv] at h
        split_ifs at h with hos
        · refine ⟨fun _ => ?_, fun hne => absurd hos hne⟩
          cases hb : buildResolvConf env cmd (env.Join stateDir "resolv.conf") with
          | mk tr e =>
            cases e with
            | some err =>
              simp only [hb, Prod.mk.injEq, Ret.ret.injEq] at h
              rw [← h.2] at hok
              simp [NetOptsReturn.failure] at hok
            | none =>
              simp only [hb] at h
              cases ha : env.AllocHostsFile dataStore ns id with
              | error err =>
                simp only [ha, Prod.mk.injEq, Ret.ret.injEq] at h
                rw [← h.2] at hok
                simp [NetOptsReturn.failure] at hok
              | ok etcHostsPath =>
                simp only [ha] at h
                cases hp : parsePorts env cmd.publish [] with
                | error pe =>
                  obtain ⟨pm, err⟩ := pe
                  simp only [hp, Prod.mk.injEq, Ret.ret.injEq] at h
                  rw [← h.2] at hok
                  simp at hok
                | ok ports =>
                  simp only [hp, List.nil_append, Prod.mk.injEq, Ret.ret.injEq] at h
                  refine ⟨etcHostsPath, rfl, ?_⟩
                  rw [← h.2]
        · refine ⟨fun he => absurd he hos, fun _ => ?_⟩
          simp only [Prod.mk.injEq, Ret.ret.injEq] at h
          rw [← h.2]

/-- Claim C9. Whenever `generateNetOpts` returns without error, the mutation list is
fixed by the detected mode. None: no mutation. Host: host network namespace, host
hosts file, host resolv.conf, in this order. CNI on linux: the bind mount of the
resolv.conf written under the state directory, then the bind mount of the allocated
hosts file; CNI elsewhere: no mutation. Container: there is one token, of the form
`<kind>:<ref>`, the walk for this `<ref>` found exactly one container, the peer, its
task runs, and the list is the network namespace at `/proc/<pid>/ns/net` for the
process id of the peer, the bind mounts of the resolv.conf and of the hosts file of the
peer, the hostname of the peer, and the bind mount of its hostname file, in this order;
the token returned is `container:<id>` for the id of the peer. A successful call
detected one of these four modes. -/
theorem generateNetOpts_mutations_by_mode (env : Env) (cmd : Flags)
    (dataStore stateDir ns id : String) (trace : List Event) (r : NetOptsReturn)
    (h : generateNetOpts env cmd dataStore stateDir ns id = (trace, .ret r))
    (hok : r.err = none) :
    (env.Detect (getNetworkSlice cmd) = .ok .None → r.opts = []) ∧
    (env.Detect (getNetworkSlice cmd) = .ok .Host →
      r.opts = [.WithHostNamespace, .WithHostHostsFile, .WithHostResolvconf]) ∧
    (env.Detect (getNetworkSlice cmd) = .ok .CNI →
      (env.GOOS = "linux" →
        ∃ etcHostsPath, env.AllocHostsFile dataStore ns id = .ok etcHostsPath ∧
          r.opts = [.withCustomResolvConf (env.Join stateDir "resolv.conf"),
            .withCustomHosts etcHostsPath]) ∧
      (env.GOOS ≠ "linux" → r.opts = [])) ∧
    (env.Detect (getNetworkSlice cmd) = .ok .Container →
      ∃ first kind ref c task conStateDir hostname,
        getNetworkSlice cmd = [first] ∧ Split first ':' = [kind, ref] ∧
        env.Containers ref = .ok [c] ∧ c.Task = .ok task ∧ task.Status = .ok .Running ∧
        env.getContainerStateDirPath cmd dataStore c.ID = .ok conStateDir ∧
        c.SpecHostname = .ok hostname ∧
        r.opts =
          [.WithLinuxNamespace ("/proc/" ++ toString task.Pid ++ "/ns/net"),
            .withCustomResolvConf (env.Join conStateDir "resolv.conf"),
            .withCustomHosts (env.HostsPath dataStore ns c.ID),
            .WithHostname hostname,
            .withCustomEtcHostname (env.Join conStateDir "hostname")] ∧
        r.netSlice = ["container:" ++ c.ID]) ∧
    (env.Detect (getNetworkSlice cmd) = .ok .None ∨
      env.Detect (getNetworkSlice cmd) = .ok .Host ∨
      env.Detect (getNetworkSlice cmd) = .ok .CNI ∨
      env.Detect (getNetworkSlice cmd) = .ok .Container) := by
  refine ⟨?_, ?_, fun hD => generateNetOpts_cni_opts env cmd dataStore stateDir ns id
    trace r hD h hok, fun hD => generateNetOpts_container_opts env cmd dataStore stateDir
    ns id trace r hD h hok, ?_⟩
  · intro hD
    unfold generateNetOpts at h
    cases hM : getMACAddress env cmd (getNetworkSlice cmd) with
    | error err =>
      simp only [hM, Prod.mk.injEq, Ret.ret.injEq] at h
      rw [← h.2] at hok
      simp [NetOptsReturn.failure] at hok
    | ok mac =>
      simp only [hM, hD, Prod.mk.injEq, Ret.ret.injEq] at h
      rw [← h.2]
  · intro hD
    unfold generateNetOpts at h
    cases hM : getMACAddress env cmd (getNetworkSlice cmd) with
    | error err =>
      simp only [hM, Prod.mk.injEq, Ret.ret.injEq] at h
      rw [← h.2] at hok
      simp [NetOptsReturn.failure] at hok
    | ok mac =>
      simp only [hM, hD] at h
      split_ifs at h with hmac
      · simp only [Prod.mk.injEq, Ret.ret.injEq] at h
        rw [← h.2] at hok
        simp [NetOptsReturn.failure] at hok
      · simp only [List.nil_append, Prod.mk.injEq, Ret.ret.injEq] at h
        rw [← h.2]
  · unfold generateNetOpts at h
    cases hM : getMACAddress env cmd (getNetworkSlice cmd) with
    | error err =>
      simp only [hM, Prod.mk.injEq, Ret.ret.injEq] at h
      rw [← h.2] at hok
      simp [NetOptsReturn.failure] at hok
    | ok mac =>
      cases hD : env.Detect (getNetworkSlice cmd) with
      | error err =>
        simp only [hM, hD, Prod.mk.injEq, Ret.ret.injEq] at h
        rw [← h.2] at hok
        simp [NetOptsReturn.failure] at hok
      | ok netType =>
        cases netType with
        | Invalid =>
          simp only [hM, hD, Prod.mk.injEq, Ret.ret.injEq] at h
          rw [← h.2] at hok
          simp [NetOptsReturn.failure] at hok
        | None => simp
        | Host => simp
        | CNI => simp
        | Container => simp

/-- Claim C9 on the sample host: `--network container:web` yields the five mutations
of the peer-shared mode for the container `4f1c` that the reference `web` names, the
namespace attachment first. -/
theorem generateNetOpts_mutations_by_mode_witness :
    ∃ first kind ref c task conStateDir hostname,
      getNetworkSlice peerFlags = [first] ∧ Split first ':' = [kind, ref] ∧
      sampleEnv.Containers ref = .ok [c] ∧ c.Task = .ok task ∧
      task.Status = .ok .Running ∧
      sampleEnv.getContainerStateDirPath peerFlags "/data" c.ID = .ok conStateDir ∧
      c.SpecHostname = .ok hostname ∧
      [SpecOpts.WithLinuxNamespace "/proc/4242/ns/net",
        .withCustomResolvConf "/data/containers/4f1c/resolv.conf",
        .withCustomHosts "/data/etchosts/default/4f1c",
        .WithHostname "web",
        .withCustomEtcHostname "/data/containers/4f1c/hostname"] =
        [.WithLinuxNamespace ("/proc/" ++ toString task.Pid ++ "/ns/net"),
          .withCustomResolvConf (sampleEnv.Join conStateDir "resolv.conf"),
          .withCustomHosts (sampleEnv.HostsPath "/data" "default" c.ID),
          .WithHostname hostname,
          .withCustomEtcHostname (sampleEnv.Join conStateDir "hostname")] ∧
      ["container:4f1c"] = ["container:" ++ c.ID] :=
  (generateNetOpts_mutations_by_mode sampleEnv peerFlags "/data" "/state" "default" "c0"
    [.NewClient "default" "/run/containerd/containerd.sock", .Walk "web"]
    ⟨[.WithLinuxNamespace "/proc/4242/ns/net",
        .withCustomResolvConf "/data/containers/4f1c/resolv.conf",
        .withCustomHosts "/data/etchosts/default/4f1c",
        .WithHostname "web",
        .withCustomEtcHostname "/data/containers/4f1c/hostname"],
      ["container:4f1c"], "", [], "", none⟩ (by decide) rfl).2.2.2.1 rfl

/-- The model at `--network bridge -p 8080:80` on the sample host: the host
resolv.conf is read, the resolv.conf is written, and the two bind mounts are returned. -/
theorem generateNetOpts_bridge_example :
    generateNetOpts sampleEnv bridgeFlags "/data" "/state" "default" "c0" =
      ([.ResolvconfGet,
        .ResolvconfBuild "/state/resolv.conf" ["192.0.2.53"]
          ["corp.example", "corp.example"] ["ndots:2"]],
        .ret ⟨[.withCustomResolvConf "/state/resolv.conf",
            .withCustomHosts "/data/etchosts/default/c0"],
          ["bridge"], "", [], "", none⟩) := by
  decide

/-! ## `volumeRmAction` -/

theorem mem_setInsert (used : List String) (name x : String) :
    x ∈ setInsert used name ↔ x ∈ used ∨ x = name := by
  unfold setInsert
  split_ifs with h
  · constructor
    · exact Or.inl
    · rintro (hx | hx)
      · exact hx
      · exact hx ▸ h
  · simp

theorem mem_usedVolumesMounts (env : VolumeEnv) (mounts : List MountPoint) :
    ∀ (used : List String) (x : String),
      x ∈ usedVolumesMounts env mounts used ↔
        x ∈ used ∨ ∃ m ∈ mounts, m.Type_ = env.mountutilVolume ∧ m.Name = x := by
  induction mounts with
  | nil => intro used x; simp [usedVolumesMounts]
  | cons m rest ih =>
    intro used x
    rw [usedVolumesMounts]
    split_ifs with hty
    · rw [ih, mem_setInsert]
      constructor
      · rintro ((h | h) | ⟨m2, hm2, h⟩)
        · exact Or.inl h
        · exact Or.inr ⟨m, by simp, hty, h.symm⟩
        · exact Or.inr ⟨m2, by simp [hm2], h⟩
      · rintro (h | ⟨m2, hm2, h⟩)
        · exact Or.inl (Or.inl h)
        · rcases List.mem_cons.1 hm2 with heq | hin
          · subst heq
            exact Or.inl (Or.inr h.2.symm)
          · exact Or.inr ⟨m2, hin, h⟩
    · rw [ih]
      constructor
      · rintro (h | ⟨m2, hm2, h⟩)
        · exact Or.inl h
        · exact Or.inr ⟨m2, by simp [hm2], h⟩
      · rintro (h | ⟨m2, hm2, h⟩)
        · exact Or.inl h
        · rcases List.mem_cons.1 hm2 with heq | hin
          · subst heq
            exact absurd h.1 hty
          · exact Or.inr ⟨m2, hin, h⟩

theorem mem_usedVolumesLoop (env : VolumeEnv) (containers : List Container) :
    ∀ (used res : List String) (x : String),
      usedVolumesLoop env containers used = .ok res →
      (x ∈ res ↔ x ∈ used ∨ ∃ c ∈ containers, ∃ l mountsJSON mounts,
        c.Labels = .ok l ∧ l env.labelsMounts = some mountsJSON ∧
        env.Unmarshal mountsJSON = .ok mounts ∧
        ∃ m ∈ mounts, m.Type_ = env.mountutilVolume ∧ m.Name = x) := by
  induction containers with
  | nil =>
    intro used res x h
    simp only [usedVolumesLoop, Except.ok.injEq] at h
    subst h
    simp
  | cons c rest ih =>
    intro used res x h
    rw [usedVolumesLoop] at h
    cases hl : c.Labels with
    | error err => simp [hl] at h
    | ok l =>
      simp only [hl] at h
      cases hj : l env.labelsMounts with
      | none =>
        simp only [hj] at h
        rw [ih used res x h]
        constructor
        · rintro (hx | ⟨c2, hc2, hrest⟩)
          · exact Or.inl hx
          · exact Or.inr ⟨c2, by simp [hc2], hrest⟩
        · rintro (hx | ⟨c2, hc2, l2, j2, ms2, h1, h2, h3⟩)
          · exact Or.inl hx
          · rcases List.mem_cons.1 hc2 with heq | hin
            · subst heq
              rw [hl] at h1
              rw [← Except.ok.inj h1, hj] at h2
              simp at h2
            · exact Or.inr ⟨c2, hin, l2, j2, ms2, h1, h2, h3⟩
      | some mountsJSON =>
        simp only [hj] at h
        cases hu : env.Unmarshal mountsJSON with
        | error err => simp [hu] at h
        | ok mounts =>
          simp only [hu] at h
          rw [ih _ res x h, mem_usedVolumesMounts]
          constructor
          · rintro ((hx | hm) | ⟨c2, hc2, hrest⟩)
            · exact Or.inl hx
            · exact Or.inr ⟨c, by simp, l, mountsJSON, mounts, hl, hj, hu, hm⟩
            · exact Or.inr ⟨c2, by simp [hc2], hrest⟩
          · rintro (hx | ⟨c2, hc2, l2, j2, ms2, h1, h2, h3, hm⟩)
            · exact Or.inl (Or.inl hx)
            · rcases List.mem_cons.1 hc2 with heq | hin
              · subst heq
                rw [hl] at h1
                rw [← Except.ok.inj h1, hj] at h2
                rw [← Option.some.inj h2, hu] at h3
                rw [← Except.ok.inj h3] at hm
                exact Or.inl (Or.inr hm)
              · exact Or.inr ⟨c2, hin, l2, j2, ms2, h1, h2, h3, hm⟩

theorem volumeRmLoop_removable (env : VolumeEnv) (volStore : VolumeStore)
    (used : List String) (name : String) (rest acc : List String)
    (h : removable volStore used name = true) :
    volumeRmLoop env volStore used (name :: rest) acc =
      volumeRmLoop env volStore used rest (acc ++ [name]) := by
  unfold removable at h
  rw [volumeRmLoop]
  cases hg : volStore.Get name false with
  | error err => simp [hg] at h
  | ok volume =>
    simp only [hg, Bool.not_eq_true', decide_eq_false_iff_not] at h
    simp [h]

theorem volumeRmLoop_not_removable (env : VolumeEnv) (volStore : VolumeStore)
    (used : List String) (name : String) (rest acc : List String)
    (h : removable volStore used name = false) :
    (∀ err, volStore.Get name false = .error err →
      volumeRmLoop env volStore used (name :: rest) acc = .error err) ∧
    (∀ volume, volStore.Get name false = .ok volume →
      volume.Name ∈ used ∧
      volumeRmLoop env volStore used (name :: rest) acc =
        .error ("volume " ++ env.Quote name ++ " is in use")) := by
  constructor
  · intro err hg
    rw [volumeRmLoop]
    simp [hg]
  · intro volume hg
    unfold removable at h
    simp only [hg, Bool.not_eq_false', decide_eq_true_eq] at h
    refine ⟨h, ?_⟩
    rw [volumeRmLoop]
    simp [hg, h]

theorem volumeRmLoop_front (env : VolumeEnv) (volStore : VolumeStore) (used : List String)
    (rest : List String) :
    ∀ (front acc : List String), (∀ u ∈ front, removable volStore used u = true) →
      volumeRmLoop env volStore used (front ++ rest) acc =
        volumeRmLoop env volStore used rest (acc ++ front) := by
  intro front
  induction front with
  | nil => intro acc _; simp
  | cons u more ih =>
    intro acc h
    rw [List.cons_append, volumeRmLoop_removable env volStore used u _ acc (h u (by simp)),
      ih (acc ++ [u]) (fun v hv => h v (by simp [hv]))]
    simp

theorem volumeRmLoop_ok_iff (env : VolumeEnv) (volStore : VolumeStore) (used : List String)
    (names : List String) :
    ∀ (acc res : List String),
      volumeRmLoop env volStore used names acc = .ok res ↔
        res = acc ++ names ∧ ∀ name ∈ names, removable volStore used name = true := by
  induction names with
  | nil =>
    intro acc res
    simp only [volumeRmLoop, Except.ok.injEq, List.append_nil, List.not_mem_nil,
      false_implies, implies_true, and_true]
    exact eq_comm
  | cons name rest ih =>
    intro acc res
    cases hr : removable volStore used name with
    | true =>
      rw [volumeRmLoop_removable env volStore used name rest acc hr, ih]
      simp [hr]
    | false =>
      have hn := volumeRmLoop_not_removable env volStore used name rest acc hr
      cases hg : volStore.Get name false with
      | error err => rw [hn.1 err hg]; simp [hr]
      | ok volume => rw [(hn.2 volume hg).2]; simp [hr]

/-- Claim C10. (1) The set computed by `usedVolumes` holds exactly the names of the
mounts of type volume recorded in the mounts label of some container. (2) Whenever
`volumeRmAction` calls `Remove` of the store, it calls it with exactly the argument
names in order, and every name has passed both checks: its volume was found and the
name of that volume is not in the used set. (3) If some argument fails a check,
`volumeRmAction` returns an error and `Remove` is not called at all. (4) The error is
decided by the first argument in order that fails a check: the error of the lookup
when its lookup fails, `volume <name> is in use` (the name quoted) when the volume
found is in use. (5) When every argument passes both checks and the earlier steps
succeed, `Remove` is called with the argument names and its error is returned. -/
theorem volumeRmAction_keeps_used_volumes (env : VolumeEnv) (cmd : Flags)
    (args : List String) :
    (∀ containers used x, usedVolumes env containers = .ok used →
      (x ∈ used ↔ ∃ c ∈ containers, ∃ l mountsJSON mounts,
        c.Labels = .ok l ∧ l env.labelsMounts = some mountsJSON ∧
        env.Unmarshal mountsJSON = .ok mounts ∧
        ∃ m ∈ mounts, m.Type_ = env.mountutilVolume ∧ m.Name = x)) ∧
    (∀ names, Event.VolumeRemove names ∈ (volumeRmAction env cmd args).1 →
      names = args ∧
      ∃ containers volStore used, env.Containers = .ok containers ∧
        env.getVolumeStore cmd = .ok volStore ∧ usedVolumes env containers = .ok used ∧
        ∀ name ∈ args, removable volStore used name = true) ∧
    (∀ containers volStore used, env.Containers = .ok containers →
      env.getVolumeStore cmd = .ok volStore → usedVolumes env containers = .ok used →
      (∃ name ∈ args, removable volStore used name = false) →
      (∃ err, (volumeRmAction env cmd args).2 = some err) ∧
      ∀ names, Event.VolumeRemove names ∉ (volumeRmAction env cmd args).1) ∧
    (∀ containers volStore used front name rest,
      env.NewClient cmd.namespaceFlag cmd.address = none →
      env.Containers = .ok containers →
      env.getVolumeStore cmd = .ok volStore → usedVolumes env containers = .ok used →
      args = front ++ name :: rest →
      (∀ u ∈ front, removable volStore used u = true) →
      removable volStore used name = false →
      (∀ err, volStore.Get name false = .error err →
        volumeRmAction env cmd args =
          ([.NewClient cmd.namespaceFlag cmd.address], some err)) ∧
      (∀ volume, volStore.Get name false = .ok volume →
        volume.Name ∈ used ∧
        volumeRmAction env cmd args =
          ([.NewClient cmd.namespaceFlag cmd.address],
            some ("volume " ++ env.Quote name ++ " is in use")))) ∧
    (∀ containers volStore used,
      env.NewClient cmd.namespaceFlag cmd.address = none →
      env.Containers = .ok containers →
      env.getVolumeStore cmd = .ok volStore → usedVolumes env containers = .ok used →
      (∀ name ∈ args, removable volStore used name = true) →
      Event.VolumeRemove args ∈ (volumeRmAction env cmd args).1 ∧
      (volumeRmAction env cmd args).2 = (volStore.Remove args).2) := by
  refine ⟨?_, ?_, ?_, ?_, ?_⟩
  · intro containers used x hu
    have := mem_usedVolumesLoop env containers [] used x hu
    simpa using this
  · intro names hmem
    unfold volumeRmAction at hmem
    cases hc : env.NewClient cmd.namespaceFlag cmd.address with
    | some err => simp [hc] at hmem
    | none =>
      cases hcs : env.Containers with
      | error err => simp [hc, hcs] at hmem
      | ok containers =>
        cases hs : env.getVolumeStore cmd with
        | error err => simp [hc, hcs, hs] at hmem
        | ok volStore =>
          cases hu : usedVolumes env containers with
          | error err => simp [hc, hcs, hs, hu] at hmem
          | ok used =>
            cases hl : volumeRmLoop env volStore used args [] with
            | error err => simp [hc, hcs, hs, hu, hl] at hmem
            | ok volumenames =>
              have hok := (volumeRmLoop_ok_iff env volStore used args [] volumenames).1 hl
              simp only [List.nil_append] at hok
              obtain ⟨hnames, hall⟩ := hok
              subst hnames
              simp only [hc, hcs, hs, hu, hl] at hmem
              cases hrm : volStore.Remove volumenames with
              | mk removed e =>
                cases e with
                | some err =>
                  simp only [hrm, List.mem_cons, reduceCtorEq, Event.VolumeRemove.injEq,
                    List.not_mem_nil, or_false, false_or] at hmem
                  exact ⟨hmem, containers, volStore, used, rfl, rfl, hu, hall⟩
                | none =>
                  simp only [hrm, List.cons_append, List.nil_append, List.mem_cons,
                    reduceCtorEq, Event.VolumeRemove.injEq, List.mem_map, and_false,
                    exists_false, or_false, false_or] at hmem
                  exact ⟨hmem, containers, volStore, used, rfl, rfl, hu, hall⟩
  · intro containers volStore used hcs hs hu hbad
    have hl : ∃ err, volumeRmLoop env volStore used args [] = .error err := by
      cases hloop : volumeRmLoop env volStore used args [] with
      | error err => exact ⟨err, rfl⟩
      | ok res =>
        obtain ⟨name, hname, hfalse⟩ := hbad
        have := ((volumeRmLoop_ok_iff env volStore used args [] res).1 hloop).2 name hname
        rw [hfalse] at this
        exact absurd this (by simp)
    obtain ⟨err, hl⟩ := hl
    unfold volumeRmAction
    cases hc : env.NewClient cmd.namespaceFlag cmd.address with
    | some err2 => simp [hc]
    | none => simp [hc, hcs, hs, hu, hl]
  · intro containers volStore used front name rest hc hcs hs hu hargs hfront hbad
    subst hargs
    have hskip := volumeRmLoop_front env volStore used (name :: rest) front [] hfront
    have hn := volumeRmLoop_not_removable env volStore used name rest ([] ++ front) hbad
    simp only [List.nil_append] at hskip hn
    constructor
    · intro err hg
      unfold volumeRmAction
      simp [hc, hcs, hs, hu, hskip, hn.1 err hg]
    · intro volume hg
      refine ⟨(hn.2 volume hg).1, ?_⟩
      unfold volumeRmAction
      simp [hc, hcs, hs, hu, hskip, (hn.2 volume hg).2]
  · intro containers volStore used hc hcs hs hu hall
    have hl : volumeRmLoop env volStore used args [] = .ok args :=
      (volumeRmLoop_ok_iff env volStore used args [] args).2 ⟨by simp, hall⟩
    unfold volumeRmAction
    simp only [hc, hcs, hs, hu, hl]
    cases hrm : volStore.Remove args with
    | mk removed e =>
      cases e with
      | some err => simp
      | none => simp

/-- Claim C10 on the sample host, where the container `9a0b` uses the volume `data`:
`volume rm cache data logs` returns the in-use error for `data` and removes nothing,
not even `cache`; `volume rm cache logs` removes both. -/
theorem volumeRmAction_keeps_used_volumes_witness :
    volumeRmAction sampleVolumeEnv noFlags ["cache", "data", "logs"] =
      ([.NewClient "default" "/run/containerd/containerd.sock"],
        some "volume \x22data\x22 is in use") ∧
    Event.VolumeRemove ["cache", "logs"] ∈
      (volumeRmAction sampleVolumeEnv noFlags ["cache", "logs"]).1 :=
  ⟨((volumeRmAction_keeps_used_volumes sampleVolumeEnv noFlags
      ["cache", "data", "logs"]).2.2.2.1 [dbContainer] sampleStore ["data"] ["cache"]
      "data" ["logs"] rfl rfl rfl rfl rfl (by decide) (by decide)).2 ⟨"data"⟩ rfl |>.2,
    ((volumeRmAction_keeps_used_volumes sampleVolumeEnv noFlags
      ["cache", "logs"]).2.2.2.2 [dbContainer] sampleStore ["data"] rfl rfl rfl rfl
      (by decide)).1⟩

end Nerdctl
